import Mathlib

/-!
Verification of the resilient caching and aggregation sublayer of the
SSC-ASPM dashboard backend.  The JavaScript source is shallowly embedded:
timestamps are naturals threaded explicitly (`Date.now()` becomes a `now`
argument), the JS `Map` becomes an insertion-ordered association list,
fallible upstream calls become `Except`, and JS truthiness checks
(`if (oldestKey)`, `err.statusCode || 500`, `response.count && ...`)
are modelled faithfully.
-/

/-- JS `a || d` for an optional numeric field: `undefined` and `0` are falsy. -/
def jsOrNat (v : Option Nat) (d : Nat) : Nat :=
  match v with
  | none => d
  | some c => if c = 0 then d else c

/-- JS `a || d` for an optional string field: `undefined` and the empty string are falsy. -/
def jsOrStr (v : Option String) (d : String) : String :=
  match v with
  | none => d
  | some s => if s = "" then d else s

/-- JS `String.prototype.replace` with a string pattern replaces only the
first occurrence; character-list worker. -/
def replaceFirstChars (pat rep : List Char) : List Char → List Char
  | [] => if pat.isPrefixOf ([] : List Char) then rep else []
  | c :: rest =>
      if pat.isPrefixOf (c :: rest) then rep ++ (c :: rest).drop pat.length
      else c :: replaceFirstChars pat rep rest

/-- JS `s.replace(pat, rep)` for plain-string patterns (first occurrence only). -/
def jsReplaceFirst (s pat rep : String) : String :=
  String.mk (replaceFirstChars pat.data rep.data s.data)

namespace CacheManager

/-- Entry stored in the cache `Map` (`cache-manager.js`): the opaque payload,
its creation time, last access time, and per-entry TTL, all in milliseconds. -/
structure CacheEntry (α : Type) where
  data : α
  timestamp : Nat
  lastAccessed : Nat
  ttl : Nat
  deriving Repr, DecidableEq

/-- Running statistics counters of the cache manager. -/
structure Stats where
  hits : Nat
  misses : Nat
  sets : Nat
  evictions : Nat
  deriving Repr, DecidableEq

/-- State of the `CacheManager`: the insertion-ordered map (JS `Map`
iteration order is insertion order), the default TTL, the capacity bound,
and the statistics counters. -/
structure CacheState (α : Type) where
  cache : List (String × CacheEntry α)
  ttl : Nat
  maxSize : Nat
  stats : Stats
  deriving Repr, DecidableEq

/-- JS `Map.prototype.set`: overwriting an existing key keeps its position
in iteration order; a new key is appended at the end. -/
def jsMapSet {α : Type} (m : List (String × CacheEntry α)) (k : String)
    (v : CacheEntry α) : List (String × CacheEntry α) :=
  if (m.lookup k).isSome then
    m.map (fun p => if p.1 = k then (k, v) else p)
  else
    m ++ [(k, v)]

/-- JS `Map.prototype.delete`: removes the entry for the key, preserving
the order of the others. -/
def jsMapDelete {α : Type} (m : List (String × CacheEntry α)) (k : String) :
    List (String × CacheEntry α) :=
  m.filter (fun p => p.1 ≠ k)

/-- CacheManager.isExpired: the entry's age `now - timestamp` strictly
exceeds its TTL.  (Nat subtraction truncates at 0, matching the JS
behaviour for the reachable case `now ≥ timestamp`.) -/
def isExpired {α : Type} (now : Nat) (entry : CacheEntry α) : Bool :=
  now - entry.timestamp > entry.ttl

/-- Result shape of a cache hit: `{ data, timestamp, stale }`. -/
structure GetResult (α : Type) where
  data : α
  timestamp : Nat
  stale : Bool
  deriving Repr, DecidableEq

/-- CacheManager.get: miss on absent key; miss on an expired entry unless
`ignoreExpiry`; otherwise updates `lastAccessed`, counts a hit and returns
`{ data, timestamp, stale }` with `stale = ignoreExpiry && isExpired`. -/
def get {α : Type} (s : CacheState α) (now : Nat) (key : String)
    (ignoreExpiry : Bool) : Option (GetResult α) × CacheState α :=
  match s.cache.lookup key with
  | none =>
      (none, { s with stats := { s.stats with misses := s.stats.misses + 1 } })
  | some entry =>
      if !ignoreExpiry && isExpired now entry then
        (none, { s with stats := { s.stats with misses := s.stats.misses + 1 } })
      else
        (some { data := entry.data, timestamp := entry.timestamp,
                stale := ignoreExpiry && isExpired now entry },
         { s with
            cache := jsMapSet s.cache key { entry with lastAccessed := now },
            stats := { s.stats with hits := s.stats.hits + 1 } })

/-- CacheManager.evictLRU's scan loop: starting from the first entry as the
current best (the JS loop starts from `oldestAccess = Infinity`, so the
first entry always wins), keep the entry with a strictly smaller
`lastAccessed`.  Ties keep the earlier entry. -/
def oldestScanAux {α : Type} (best : String × Nat) :
    List (String × CacheEntry α) → String × Nat
  | [] => best
  | (k, e) :: rest =>
      if e.lastAccessed < best.2 then oldestScanAux (k, e.lastAccessed) rest
      else oldestScanAux best rest

/-- Result of the evictLRU scan: `none` on an empty map, otherwise the first
entry attaining the minimal `lastAccessed`. -/
def oldestScan {α : Type} : List (String × CacheEntry α) → Option (String × Nat)
  | [] => none
  | (k, e) :: rest => some (oldestScanAux (k, e.lastAccessed) rest)

/-- CacheManager.evictLRU: delete the least-recently-accessed entry and count
an eviction.  The JS guard `if (oldestKey)` is a truthiness test, so a `null`
result (empty map) and an empty-string key both skip the deletion. -/
def evictLRU {α : Type} (s : CacheState α) : CacheState α :=
  match oldestScan s.cache with
  | none => s
  | some (oldestKey, _) =>
      if oldestKey ≠ "" then
        { s with
            cache := jsMapDelete s.cache oldestKey,
            stats := { s.stats with evictions := s.stats.evictions + 1 } }
      else s

/-- CacheManager.set: evict the LRU entry first when inserting a brand-new
key into a full store, then insert `{ data, timestamp: now,
lastAccessed: now, ttl }` and count a set. -/
def set {α : Type} (s : CacheState α) (now : Nat) (key : String) (data : α)
    (ttl : Nat) : CacheState α :=
  let s1 :=
    if s.cache.length ≥ s.maxSize && (s.cache.lookup key).isNone then evictLRU s
    else s
  let entry : CacheEntry α :=
    { data := data, timestamp := now, lastAccessed := now, ttl := ttl }
  { s1 with
      cache := jsMapSet s1.cache key entry,
      stats := { s1.stats with sets := s1.stats.sets + 1 } }

/-- CacheManager.generateKey: empty or absent filters yield `metric_all`;
otherwise the filter keys are sorted, rendered as `key:value` and joined
with underscores after the metric name. -/
def generateKey (metric : String) (filters : List (String × String)) : String :=
  if filters.length = 0 then
    metric ++ "_all"
  else
    let sortedKeys := List.insertionSort (· ≤ ·) (filters.map Prod.fst)
    let filterParts :=
      String.intercalate "_"
        (sortedKeys.map (fun key => key ++ ":" ++ (filters.lookup key).getD "undefined"))
    metric ++ "_" ++ filterParts

/-- Exact (unrounded) hit rate `hits / (hits + misses)` from
CacheManager.getStats, as a rational. -/
def exactHitRate (s : Stats) : ℚ :=
  if s.hits + s.misses > 0 then (s.hits : ℚ) / ((s.hits : ℚ) + (s.misses : ℚ))
  else 0

/-- JS `Math.round`: rounds half away from zero toward positive infinity. -/
def jsRound (q : ℚ) : ℤ :=
  ⌊q + 1 / 2⌋

/-- Reported hit rate from CacheManager.getStats:
`Math.round(hitRate * 100) / 100`. -/
def reportedHitRate (s : Stats) : ℚ :=
  (jsRound (exactHitRate s * 100) : ℚ) / 100

end CacheManager

namespace SSCApiClient

/-- Shape of an axios error as far as `ssc-client.js` inspects it:
`error.response` (absent on transport failure, otherwise carrying the HTTP
status), `error.message`, and `error.response.data?.message`. -/
structure AxiosError where
  response : Option Nat
  message : String
  dataMessage : Option String
  deriving Repr, DecidableEq

/-- Classified error produced by SSCApiClient.classifyError: a fresh `Error`
with a `type` tag and a `statusCode` attached. -/
structure ClassifiedError where
  message : String
  type : String
  statusCode : Nat
  deriving Repr, DecidableEq

/-- SSCApiClient.shouldRetry: retry on network errors (no response) or on
5xx server statuses. -/
def shouldRetry (error : AxiosError) : Bool :=
  match error.response with
  | none => true
  | some status => 500 ≤ status && status < 600

/-- SSCApiClient.classifyError: network failures map to 503, 401/403/404/400
to themselves with dedicated types, and any other status to an `API_ERROR`
carrying that same status. -/
def classifyError (error : AxiosError) (endpoint : String) : ClassifiedError :=
  match error.response with
  | none =>
      { message := "Network error connecting to SSC API: " ++ error.message,
        type := "NETWORK_ERROR", statusCode := 503 }
  | some status =>
      let message := (error.dataMessage).getD error.message
      if status = 401 then
        { message := "SSC API authentication failed - invalid token",
          type := "AUTH_ERROR", statusCode := 401 }
      else if status = 403 then
        { message := "SSC API access forbidden - insufficient permissions",
          type := "PERMISSION_ERROR", statusCode := 403 }
      else if status = 404 then
        { message := "SSC API endpoint not found: " ++ endpoint,
          type := "NOT_FOUND", statusCode := 404 }
      else if status = 400 then
        { message := "SSC API bad request: " ++ message,
          type := "BAD_REQUEST", statusCode := 400 }
      else
        { message := "SSC API error (" ++ toString status ++ "): " ++ message,
          type := "API_ERROR", statusCode := status }

/-- Outcome of one attempt of the underlying `axios` call. -/
inductive AttemptResult (α : Type) where
  | ok (payload : α)
  | err (error : AxiosError)
  deriving Repr, DecidableEq

/-- Trace of one SSCApiClient.get run: the back-off delays slept between
attempts, the number of the attempt that produced the outcome, and the
outcome itself (payload or classified error). -/
structure RunTrace (α : Type) where
  delays : List Nat
  attempts : Nat
  outcome : Except ClassifiedError α
  deriving Repr

/-- Recursive body of SSCApiClient.get.  `attempt` is the 1-based attempt
counter of the source; the extra `fuel` argument (initially `retries`, an
upper bound on the number of recursive calls since the source only recurses
while `attempt < retries`) makes the recursion structural.  On an error the
request is retried after `retryDelay * attempt` milliseconds while
`attempt < retries` and the error is retryable; otherwise the classified
error is thrown. -/
def getAux {α : Type} (retries retryDelay : Nat) (out : Nat → AttemptResult α)
    (endpoint : String) : Nat → Nat → List Nat → RunTrace α
  | 0, attempt, delays =>
      match out attempt with
      | .ok v => { delays := delays, attempts := attempt, outcome := .ok v }
      | .err e =>
          { delays := delays, attempts := attempt,
            outcome := .error (classifyError e endpoint) }
  | fuel + 1, attempt, delays =>
      match out attempt with
      | .ok v => { delays := delays, attempts := attempt, outcome := .ok v }
      | .err e =>
          if attempt < retries && shouldRetry e then
            getAux retries retryDelay out endpoint fuel (attempt + 1)
              (delays ++ [retryDelay * attempt])
          else
            { delays := delays, attempts := attempt,
              outcome := .error (classifyError e endpoint) }

/-- SSCApiClient.get with retry logic, starting at attempt 1. -/
def get {α : Type} (retries retryDelay : Nat) (out : Nat → AttemptResult α)
    (endpoint : String) : RunTrace α :=
  getAux retries retryDelay out endpoint retries 1 []

/-- Response shape consumed by SSCApiClient.getWithPagination:
`response.data` and the optional advertised `response.count`. -/
structure PageResponse (α : Type) where
  data : List α
  count : Option Nat
  deriving Repr, DecidableEq

/-- JS condition `response.count && allData.length >= response.count`:
an absent count and a zero count are both falsy. -/
def countReached (count : Option Nat) (len : Nat) : Bool :=
  match count with
  | none => false
  | some c => !(c = 0) && len ≥ c

/-- Loop body of SSCApiClient.getWithPagination.  The source's `while
(true)` loop becomes fuel-based recursion; `none` models non-termination.
Alongside the accumulated data it records the offsets requested so far. -/
def paginateAux {α : Type} (pages : Nat → PageResponse α) (limit : Nat) :
    Nat → Nat → List α → List Nat → Option (List α × List Nat)
  | 0, _, _, _ => none
  | fuel + 1, start, allData, offsets =>
      let response := pages start
      let data := response.data
      let offsets := offsets ++ [start]
      if data.length = 0 then some (allData, offsets)
      else
        let allData := allData ++ data
        if data.length < limit || countReached response.count allData.length then
          some (allData, offsets)
        else
          paginateAux pages limit fuel (start + limit) allData offsets

/-- SSCApiClient.getWithPagination: fetch pages at offsets 0, limit,
2*limit, ... until a short page or the advertised total is reached. -/
def getWithPagination {α : Type} (pages : Nat → PageResponse α) (limit : Nat)
    (fuel : Nat) : Option (List α × List Nat) :=
  paginateAux pages limit fuel 0 [] []

end SSCApiClient

namespace DataAggregator

/-- chunkArray from `data-aggregator.js` (listing in backend/README.md):
`for (let i = 0; i < array.length; i += size) chunks.push(array.slice(i,
i + size))`, rendered as a map over the iteration indices.  For `size ≥ 1`
the loop runs `⌈array.length / size⌉` times with `i = j * size` on
iteration `j`. -/
def chunkArray {α : Type} (array : List α) (size : Nat) : List (List α) :=
  (List.range ((array.length + size - 1) / size)).map
    (fun j => (array.drop (j * size)).take size)

/-- Per-version issue fetch result inside aggregateIssuesAcrossVersions:
a failed `sscClient.get` is caught and replaced by `{ data: [] }`. -/
def fetchResult {α : Type} (fetch : Nat → Except String (List α)) (vid : Nat) :
    List α :=
  match fetch vid with
  | .ok issues => issues
  | .error _ => []

/-- aggregateIssuesAcrossVersions from `data-aggregator.js` (listing in
backend/README.md): chunk the versions to the concurrency bound, fetch each
version's issues (empty list on per-item failure), flatten each chunk's
results and append the chunks in order. -/
def aggregateIssuesAcrossVersions {α : Type}
    (fetch : Nat → Except String (List α)) (versions : List Nat)
    (maxConcurrentRequests : Nat) : List α :=
  ((chunkArray versions maxConcurrentRequests).map
    (fun chunk => (chunk.map (fetchResult fetch)).flatten)).flatten

end DataAggregator

namespace Scheduler

/-- State of the scheduler that forceRefresh touches: the reentrancy guard,
the last refresh timestamp, and the registered jobs.  A job is its name
paired with the outcome its `fn()` produces when invoked (`ok` or a thrown
error message). -/
structure SchedulerState where
  refreshInProgress : Bool
  lastRefreshTime : Option Nat
  refreshFunctions : List (String × Except String Unit)
  deriving Repr

/-- Return value of Scheduler.forceRefresh: either `{ skipped: true }` or
the `{ success, failed, duration }` record. -/
inductive RefreshOutcome where
  | skipped
  | completed (success : List String) (failed : List (String × String))
      (duration : Nat)
  deriving Repr, DecidableEq

/-- Job loop of forceRefresh: run each registered job in order, recording
successes by name and failures as `{ name, error }`, never aborting. -/
def runJobs : List (String × Except String Unit) →
    List String × List (String × String)
  | [] => ([], [])
  | (name, .ok _) :: rest =>
      let r := runJobs rest
      (name :: r.1, r.2)
  | (name, .error msg) :: rest =>
      let r := runJobs rest
      (r.1, (name, msg) :: r.2)

/-- Scheduler.forceRefresh: if a refresh is in progress return
`{ skipped: true }` without touching anything; otherwise set the guard, run
every registered job, record `lastRefreshTime`, clear the guard and return
the results.  The third component lists the jobs actually invoked, in
order; `startTime`/`endTime` model the two `Date.now()` reads. -/
def forceRefresh (s : SchedulerState) (startTime endTime : Nat) :
    SchedulerState × RefreshOutcome × List String :=
  if s.refreshInProgress then (s, .skipped, [])
  else
    let running : SchedulerState := { s with refreshInProgress := true }
    let r := runJobs running.refreshFunctions
    ({ running with
        refreshInProgress := false,
        lastRefreshTime := some endTime },
     .completed r.1 r.2 (endTime - startTime),
     running.refreshFunctions.map Prod.fst)

end Scheduler

namespace ErrorHandler

open CacheManager SSCApiClient

/-- Shape of the express error object as far as `error-handler.js` reads
it: `err.message`, the optional `err.type` and `err.statusCode`. -/
structure JsError where
  message : String
  type : Option String
  statusCode : Option Nat
  deriving Repr, DecidableEq

/-- Request data used by the error handler: the path and the parsed query. -/
structure ErrRequest where
  path : String
  query : List (String × String)
  deriving Repr, DecidableEq

/-- Response sent by the error handler: either the stale-cache envelope
(HTTP 200) or the structured error response. -/
inductive HandlerResponse (α : Type) where
  | staleServed (status : Nat) (data : α) (stale : Bool) (error : String)
      (lastUpdated : Nat)
  | errorResponse (status : Nat) (message : String) (type : String)
  deriving Repr, DecidableEq

/-- Cache key computed by errorHandler:
`cache.generateKey(req.path.replace('/api/', ''), req.query)`. -/
def errorHandlerCacheKey (path : String) (query : List (String × String)) :
    String :=
  generateKey (jsReplaceFirst path "/api/" "") query

/-- Cache key used by the GET /api/program/kpis route handler:
`cache.generateKey('program_kpis', req.query)`. -/
def kpisRouteCacheKey (query : List (String × String)) : String :=
  generateKey "program_kpis" query

/-- errorHandler from `error-handler.js`: attempt a stale-allowed cache
read on the path-derived key; if it hits, answer 200 with the stale
envelope; otherwise answer with `err.statusCode || 500`, `err.message`, and
`err.type || 'INTERNAL_ERROR'`. -/
def errorHandler {α : Type} (err : JsError) (req : ErrRequest)
    (s : CacheState α) (now : Nat) : HandlerResponse α × CacheState α :=
  let cacheKey := errorHandlerCacheKey req.path req.query
  match CacheManager.get s now cacheKey true with
  | (some staleData, s1) =>
      (.staleServed 200 staleData.data true err.message staleData.timestamp, s1)
  | (none, s1) =>
      (.errorResponse (jsOrNat err.statusCode 500) err.message
        (jsOrStr err.type "INTERNAL_ERROR"), s1)

/-- Conversion of a classified client error into the error object the
middleware receives: message plus the dynamically attached `type` and
`statusCode` fields. -/
def toJsError (c : ClassifiedError) : JsError :=
  { message := c.message, type := some c.type, statusCode := some c.statusCode }

end ErrorHandler

/-! ### Association-list helper lemmas

The JS `Map` is embedded as an insertion-ordered association list; these
lemmas relate `List.lookup`, membership, appending, the overwrite map of
`jsMapSet`, and permutations. -/

section AssocLemmas

variable {β : Type}

theorem lookup_cons (k a : String) (b : β) (l : List (String × β)) :
    List.lookup k ((a, b) :: l) = if k = a then some b else List.lookup k l := by
  by_cases h : k = a
  · simp [List.lookup, h]
  · have hb : (k == a) = false := beq_eq_false_iff_ne.mpr h
    simp [List.lookup, hb, h]

theorem lookup_append_cases (m l : List (String × β)) (k : String) :
    (m ++ l).lookup k =
      match m.lookup k with
      | some v => some v
      | none => l.lookup k := by
  induction m with
  | nil => simp
  | cons p rest ih =>
      rcases p with ⟨a, b⟩
      by_cases h : k = a
      · simp [lookup_cons, h]
      · simpa [lookup_cons, h] using ih

theorem lookup_eq_some_mem {m : List (String × β)} {k : String} {v : β}
    (h : m.lookup k = some v) : (k, v) ∈ m := by
  induction m with
  | nil => simp [List.lookup] at h
  | cons p rest ih =>
      rcases p with ⟨a, b⟩
      rw [lookup_cons] at h
      by_cases hk : k = a
      · rw [if_pos hk] at h
        injection h with hbv
        simp [hk, hbv]
      · rw [if_neg hk] at h
        exact List.mem_cons_of_mem _ (ih h)

theorem lookup_eq_none_not_mem {m : List (String × β)} {k : String}
    (h : m.lookup k = none) (v : β) : (k, v) ∉ m := by
  induction m with
  | nil => simp
  | cons p rest ih =>
      rcases p with ⟨a, b⟩
      rw [lookup_cons] at h
      by_cases hk : k = a
      · rw [if_pos hk] at h
        exact absurd h (by simp)
      · rw [if_neg hk] at h
        intro hmem
        rcases List.mem_cons.1 hmem with heq | hmem'
        · exact hk (by simpa using congrArg Prod.fst heq)
        · exact ih h hmem'

theorem nodupKeys_mem_lookup {m : List (String × β)}
    (nd : (m.map Prod.fst).Nodup) {k : String} {v : β} (hmem : (k, v) ∈ m) :
    m.lookup k = some v := by
  induction m with
  | nil => simp at hmem
  | cons p rest ih =>
      rcases p with ⟨a, b⟩
      simp only [List.map_cons, List.nodup_cons] at nd
      rw [lookup_cons]
      rcases List.mem_cons.1 hmem with heq | hmem'
      · rcases Prod.mk.injEq .. ▸ heq with ⟨h1, h2⟩
        simp [h1, h2]
      · have hk : k ≠ a := by
          intro hkk
          exact nd.1 (hkk ▸ (List.mem_map.2 ⟨(k, v), hmem', rfl⟩))
        rw [if_neg hk]
        exact ih nd.2 hmem'

theorem lookup_perm {m₁ m₂ : List (String × β)} (hp : m₁.Perm m₂)
    (nd : (m₁.map Prod.fst).Nodup) (k : String) :
    m₁.lookup k = m₂.lookup k := by
  have nd₂ : (m₂.map Prod.fst).Nodup := ((hp.map Prod.fst).nodup_iff).1 nd
  cases h : m₁.lookup k with
  | some v =>
      exact (nodupKeys_mem_lookup nd₂ (hp.mem_iff.1 (lookup_eq_some_mem h))).symm
  | none =>
      cases h₂ : m₂.lookup k with
      | none => rfl
      | some v =>
          exact absurd (hp.mem_iff.2 (lookup_eq_some_mem h₂))
            (lookup_eq_none_not_mem h v)

end AssocLemmas

namespace CacheManager

variable {α : Type}

theorem lookup_overwriteMap_self {m : List (String × CacheEntry α)}
    {k : String} (v : CacheEntry α) (h : (m.lookup k).isSome) :
    ((m.map (fun p => if p.1 = k then (k, v) else p)).lookup k) = some v := by
  induction m with
  | nil => simp [List.lookup] at h
  | cons p rest ih =>
      rcases p with ⟨a, b⟩
      by_cases ha : a = k
      · simp [ha, lookup_cons]
      · have hka : ¬ k = a := fun hh => ha hh.symm
        rw [lookup_cons, if_neg hka] at h
        simp only [List.map_cons, if_neg ha]
        rw [lookup_cons, if_neg hka]
        exact ih h

theorem lookup_overwriteMap_ne (m : List (String × CacheEntry α))
    (k : String) (v : CacheEntry α) {k' : String} (h : k' ≠ k) :
    ((m.map (fun p => if p.1 = k then (k, v) else p)).lookup k') =
      m.lookup k' := by
  induction m with
  | nil => simp
  | cons p rest ih =>
      rcases p with ⟨a, b⟩
      by_cases ha : a = k
      · simp only [List.map_cons, if_pos ha]
        rw [lookup_cons, lookup_cons, if_neg h, if_neg (ha ▸ h), ih]
      · simp only [List.map_cons, if_neg ha]
        rw [lookup_cons, lookup_cons, ih]

theorem lookup_jsMapSet_self (m : List (String × CacheEntry α)) (k : String)
    (v : CacheEntry α) : (jsMapSet m k v).lookup k = some v := by
  unfold jsMapSet
  cases hx : m.lookup k with
  | some w =>
      rw [if_pos (by simp [hx])]
      exact lookup_overwriteMap_self v (by simp [hx])
  | none =>
      rw [if_neg (by simp [hx])]
      rw [lookup_append_cases, hx]
      simp [lookup_cons]

theorem lookup_jsMapSet_ne (m : List (String × CacheEntry α)) (k : String)
    (v : CacheEntry α) {k' : String} (h : k' ≠ k) :
    (jsMapSet m k v).lookup k' = m.lookup k' := by
  unfold jsMapSet
  cases hx : m.lookup k with
  | some w =>
      rw [if_pos (by simp [hx])]
      exact lookup_overwriteMap_ne m k v h
  | none =>
      rw [if_neg (by simp [hx])]
      rw [lookup_append_cases]
      cases hy : m.lookup k' with
      | some w => rfl
      | none => simp [lookup_cons, h]

end CacheManager

section ClaimC3

open CacheManager

/-- C3: for every key `k`, payload `v` and ttl `t`: immediately after
`set(k, v, t)` a fresh `get(k)` returns `v`; once the entry's age exceeds
its ttl, a fresh `get(k)` is absent while a stale-allowed `get(k)` returns
the stored payload with `stale = true`; a stale-allowed `get` on a
non-expired entry returns it with `stale = false`; and `get` on a key never
set is absent. -/
theorem cache_ttl_stale_semantics {α : Type} (s s0 : CacheState α)
    (now later1 later2 now0 : Nat) (k k0 : String) (v : α) (t : Nat) (b : Bool)
    (hexp : later1 - now > t) (hfresh : later2 - now ≤ t)
    (hnever : s0.cache.lookup k0 = none) :
    ((CacheManager.get (CacheManager.set s now k v t) now k false).1 =
        some { data := v, timestamp := now, stale := false })
    ∧ ((CacheManager.get (CacheManager.set s now k v t) later1 k false).1 = none)
    ∧ ((CacheManager.get (CacheManager.set s now k v t) later1 k true).1 =
        some { data := v, timestamp := now, stale := true })
    ∧ ((CacheManager.get (CacheManager.set s now k v t) later2 k true).1 =
        some { data := v, timestamp := now, stale := false })
    ∧ ((CacheManager.get s0 now0 k0 b).1 = none) := by
  have hl : (CacheManager.set s now k v t).cache.lookup k =
      some { data := v, timestamp := now, lastAccessed := now, ttl := t } :=
    lookup_jsMapSet_self _ k _
  refine ⟨?_, ?_, ?_, ?_, ?_⟩
  · simp [CacheManager.get, hl, isExpired]
  · simp [CacheManager.get, hl, isExpired, hexp]
  · simp [CacheManager.get, hl, isExpired, hexp]
  · simp [CacheManager.get, hl, isExpired, Nat.not_lt.mpr hfresh]
  · simp [CacheManager.get, hnever]

/-- Witness for C3 at a concrete cache: ttl 100, set at time 0, fresh read
at 0, expired reads at 150, non-expired stale read at 50, and a read of a
never-set key. -/
theorem cache_ttl_stale_semantics_witness :
    (150 - 0 > 100) ∧ (50 - 0 ≤ 100) ∧
    (((CacheManager.get (CacheManager.set
          (⟨[], 100, 10, ⟨0, 0, 0, 0⟩⟩ : CacheState Nat) 0 "k" 42 100)
          0 "k" false).1 =
        some { data := 42, timestamp := 0, stale := false })
      ∧ ((CacheManager.get (CacheManager.set
          (⟨[], 100, 10, ⟨0, 0, 0, 0⟩⟩ : CacheState Nat) 0 "k" 42 100)
          150 "k" false).1 = none)
      ∧ ((CacheManager.get (CacheManager.set
          (⟨[], 100, 10, ⟨0, 0, 0, 0⟩⟩ : CacheState Nat) 0 "k" 42 100)
          150 "k" true).1 =
        some { data := 42, timestamp := 0, stale := true })
      ∧ ((CacheManager.get (CacheManager.set
          (⟨[], 100, 10, ⟨0, 0, 0, 0⟩⟩ : CacheState Nat) 0 "k" 42 100)
          50 "k" true).1 =
        some { data := 42, timestamp := 0, stale := false })
      ∧ ((CacheManager.get (⟨[], 100, 10, ⟨0, 0, 0, 0⟩⟩ : CacheState Nat)
          0 "j" false).1 = none)) :=
  ⟨by decide, by decide,
    cache_ttl_stale_semantics _ _ 0 150 50 0 "k" "j" 42 100 false
      (by decide) (by decide) rfl⟩

end ClaimC3

namespace CacheManager

variable {α : Type}

/-- Characterization of the evictLRU scan loop: either no entry beats the
running best (and the best is returned, every entry being at least as
recent), or the scan returns the first entry strictly below the running
best that attains the minimum `lastAccessed` of the list. -/
theorem oldestScanAux_spec (l : List (String × CacheEntry α)) :
    ∀ best : String × Nat,
    (oldestScanAux best l = best ∧ ∀ p ∈ l, best.2 ≤ p.2.lastAccessed) ∨
    (∃ k₀ a₀ pre e₀ suf,
      oldestScanAux best l = (k₀, a₀) ∧
      l = pre ++ (k₀, e₀) :: suf ∧
      e₀.lastAccessed = a₀ ∧
      a₀ < best.2 ∧
      (∀ p ∈ pre, a₀ < p.2.lastAccessed) ∧
      (∀ p ∈ l, a₀ ≤ p.2.lastAccessed)) := by
  induction l with
  | nil =>
      intro best
      left
      exact ⟨rfl, by simp⟩
  | cons p rest ih =>
      rcases p with ⟨k, e⟩
      intro best
      by_cases hlt : e.lastAccessed < best.2
      · have h1 : oldestScanAux best ((k, e) :: rest) =
            oldestScanAux (k, e.lastAccessed) rest := by
          simp [oldestScanAux, hlt]
        rcases ih (k, e.lastAccessed) with ⟨heq, hmin⟩ |
          ⟨k₀, a₀, pre, e₀, suf, hscan, hdec, hla, hlt', hpre, hmin⟩
      
        · right
          refine ⟨k, e.lastAccessed, [], e, rest, ?_, ?_, rfl, hlt, ?_, ?_⟩
          · rw [h1, heq]
          · simp
          · simp
          · intro q hq
            rcases List.mem_cons.1 hq with hq1 | hq2
            · exact le_of_eq (by rw [hq1])
            · exact hmin q hq2
        · right
          refine ⟨k₀, a₀, (k, e) :: pre, e₀, suf, ?_, ?_, hla, ?_, ?_, ?_⟩
          · rw [h1, hscan]
          · rw [hdec]
            simp
          · exact lt_trans hlt' hlt
          · intro q hq
            rcases List.mem_cons.1 hq with hq1 | hq2
            · rw [hq1]
              exact hlt'
            · exact hpre q hq2
          · intro q hq
            rcases List.mem_cons.1 hq with hq1 | hq2
            · rw [hq1]
              exact le_of_lt hlt'
            · exact hmin q (hdec ▸ hq2)
      · have h1 : oldestScanAux best ((k, e) :: rest) =
            oldestScanAux best rest := by
          simp [oldestScanAux, hlt]
        rcases ih best with ⟨heq, hmin⟩ |
          ⟨k₀, a₀, pre, e₀, suf, hscan, hdec, hla, hlt', hpre, hmin⟩
        · left
          refine ⟨h1.trans heq, ?_⟩
          intro q hq
          rcases List.mem_cons.1 hq with hq1 | hq2
          · rw [hq1]
            exact Nat.not_lt.1 hlt
          · exact hmin q hq2
        · right
          refine ⟨k₀, a₀, (k, e) :: pre, e₀, suf, ?_, ?_, hla, hlt', ?_, ?_⟩
          · rw [h1, hscan]
          · rw [hdec]
            simp
          · intro q hq
            rcases List.mem_cons.1 hq with hq1 | hq2
            · rw [hq1]
              exact lt_of_lt_of_le hlt' (Nat.not_lt.1 hlt)
            · exact hpre q hq2
          · intro q hq
            rcases List.mem_cons.1 hq with hq1 | hq2
            · rw [hq1]
              exact le_trans (le_of_lt hlt') (Nat.not_lt.1 hlt)
            · exact hmin q (hdec ▸ hq2)

/-- The evictLRU scan on a non-empty map returns the first entry attaining
the minimal `lastAccessed`: the list decomposes around the chosen entry,
all earlier entries are strictly more recent, and no entry is older. -/
theorem oldestScan_spec {m : List (String × CacheEntry α)} {k₀ : String}
    {a₀ : Nat} (h : oldestScan m = some (k₀, a₀)) :
    ∃ pre e₀ suf,
      m = pre ++ (k₀, e₀) :: suf ∧
      e₀.lastAccessed = a₀ ∧
      (∀ p ∈ pre, a₀ < p.2.lastAccessed) ∧
      (∀ p ∈ m, a₀ ≤ p.2.lastAccessed) := by
  match m, h with
  | (k, e) :: rest, h =>
      have h' : oldestScanAux (k, e.lastAccessed) rest = (k₀, a₀) := by
        have := h
        simp only [oldestScan] at this
        exact Option.some.inj this
      rcases oldestScanAux_spec rest (k, e.lastAccessed) with ⟨heq, hmin⟩ |
        ⟨k₁, a₁, pre, e₀, suf, hscan, hdec, hla, hlt', hpre, hmin⟩
      · have hk : k₀ = k ∧ a₀ = e.lastAccessed := by
          have := h'.symm.trans heq
          exact ⟨(Prod.mk.injEq .. ▸ this).1, (Prod.mk.injEq .. ▸ this).2⟩
      
        refine ⟨[], e, rest, by simp [hk.1], hk.2.symm, by simp, ?_⟩
        intro q hq
        rcases List.mem_cons.1 hq with hq1 | hq2
        · rw [hq1, hk.2]
        · rw [hk.2]
          exact hmin q hq2
      · have hk : k₁ = k₀ ∧ a₁ = a₀ := by
          have := hscan.symm.trans h'
          exact ⟨(Prod.mk.injEq .. ▸ this).1, (Prod.mk.injEq .. ▸ this).2⟩
        refine ⟨(k, e) :: pre, e₀, suf, ?_, hk.2 ▸ hla, ?_, ?_⟩
        · rw [hdec, hk.1]
          simp
        · intro q hq
          rcases List.mem_cons.1 hq with hq1 | hq2
          · rw [hq1]
            exact hk.2 ▸ hlt'
          · exact hk.2 ▸ hpre q hq2
        · intro q hq
          rcases List.mem_cons.1 hq with hq1 | hq2
          · rw [hq1]
            exact hk.2 ▸ le_of_lt hlt'
          · exact hk.2 ▸ hmin q (hdec ▸ hq2)

/-- A lookup that fails on a list fails on any sublist obtained by removing
an element, and conversely membership transfers; specialized helper: if no
pair with the key is a member, the lookup is `none`. -/
theorem not_mem_lookup_eq_none {m : List (String × CacheEntry α)}
    {k : String} (h : ∀ v, (k, v) ∉ m) : m.lookup k = none := by
  cases hx : m.lookup k with
  | none => rfl
  | some v => exact absurd (lookup_eq_some_mem hx) (h v)

/-- Deleting the key of the distinguished entry of a nodup-keyed
decomposition removes exactly that entry. -/
theorem jsMapDelete_decomposition (pre suf : List (String × CacheEntry α))
    (k₀ : String) (e₀ : CacheEntry α)
    (nd : ((pre ++ (k₀, e₀) :: suf).map Prod.fst).Nodup) :
    jsMapDelete (pre ++ (k₀, e₀) :: suf) k₀ = pre ++ suf := by
  rw [List.map_append, List.map_cons] at nd
  rw [List.nodup_append] at nd
  rcases nd with ⟨ndpre, ndcons, hdisj⟩
  have hpre : ∀ p ∈ pre, p.1 ≠ k₀ := by
    intro p hp hcontra
    exact hdisj (List.mem_map.2 ⟨p, hp, rfl⟩) (by simp [hcontra])
  have hsuf : ∀ p ∈ suf, p.1 ≠ k₀ := by
    intro p hp hcontra
    rcases List.nodup_cons.1 ndcons with ⟨hnotin, _⟩
    exact hnotin (hcontra ▸ List.mem_map.2 ⟨p, hp, rfl⟩)
  unfold jsMapDelete
  rw [List.filter_append, List.filter_cons]
  have hself : (decide ((k₀, e₀).1 ≠ k₀)) = false := by simp
  rw [hself]
  rw [List.filter_eq_self.2 (fun p hp => by simpa using hpre p hp),
      List.filter_eq_self.2 (fun p hp => by simpa using hsuf p hp)]
  simp

end CacheManager

namespace CacheManager

theorem jsMapSet_keys {α : Type} (m : List (String × CacheEntry α))
    (k : String) (v : CacheEntry α) (h : (m.lookup k).isSome) :
    (jsMapSet m k v).map Prod.fst = m.map Prod.fst := by
  unfold jsMapSet
  rw [if_pos h, List.map_map]
  apply List.map_congr_left
  intro p hp
  by_cases hpk : p.1 = k
  · simp [hpk]
  · simp [hpk]

end CacheManager

section ClaimC2

open CacheManager

/-- C2 (amended): when a brand-new key is inserted while the cache already
holds `maxSize` entries, provided no stored key is the empty string (the
`if (oldestKey)` truthiness guard of evictLRU skips an empty-string key),
`set` first evicts exactly one entry: the first entry in iteration order
attaining the smallest `lastAccessedAt` (so ties break deterministically);
overwriting an existing key never evicts; every successful `get` updates
the returned entry's `lastAccessedAt`; and with `maxSize = 2` the sequence
`set A, set B, get A, set C` evicts `B`, not `A`. -/
theorem cache_lru_eviction_amended {α : Type}
    (s : CacheState α) (now : Nat) (key : String) (v : α) (t : Nat)
    (hfull : s.cache.length ≥ s.maxSize)
    (hnew : s.cache.lookup key = none)
    (hkeys : (s.cache.map Prod.fst).Nodup)
    (hnonempty : s.cache ≠ [])
    (hne : ∀ p ∈ s.cache, p.1 ≠ "")
    (s2 : CacheState α) (now2 : Nat) (key2 : String) (e2 : CacheEntry α)
    (v2 : α) (t2 : Nat) (hmem2 : s2.cache.lookup key2 = some e2)
    (s3 : CacheState α) (now3 : Nat) (k3 : String) (b3 : Bool)
    (r3 : GetResult α) (h3 : (CacheManager.get s3 now3 k3 b3).1 = some r3) :
    (∃ k₀ e₀ pre suf,
      s.cache = pre ++ (k₀, e₀) :: suf ∧
      (∀ p ∈ s.cache, e₀.lastAccessed ≤ p.2.lastAccessed) ∧
      (∀ p ∈ pre, e₀.lastAccessed < p.2.lastAccessed) ∧
      (CacheManager.set s now key v t).cache =
        (pre ++ suf) ++
          [(key, { data := v, timestamp := now, lastAccessed := now, ttl := t })] ∧
      (CacheManager.set s now key v t).stats.evictions =
        s.stats.evictions + 1)
    ∧ ((CacheManager.set s2 now2 key2 v2 t2).stats.evictions =
          s2.stats.evictions ∧
       (CacheManager.set s2 now2 key2 v2 t2).cache.map Prod.fst =
          s2.cache.map Prod.fst)
    ∧ (∃ e3, s3.cache.lookup k3 = some e3 ∧
       (CacheManager.get s3 now3 k3 b3).2.cache.lookup k3 =
         some { e3 with lastAccessed := now3 })
    ∧ ((CacheManager.set ((CacheManager.get (CacheManager.set
          (CacheManager.set (⟨[], 1000, 2, ⟨0, 0, 0, 0⟩⟩ : CacheState Nat)
            10 "A" 1 1000)
          20 "B" 2 1000) 30 "A" false).2) 40 "C" 3 1000).cache.map Prod.fst
        = ["A", "C"]) := by
  refine ⟨?_, ⟨?_, ?_⟩, ?_, by decide⟩
  · -- (a) eviction of the least recently used entry
    obtain ⟨k₀, a₀, hscan⟩ : ∃ k₀ a₀, oldestScan s.cache = some (k₀, a₀) := by
      cases hc : s.cache with
      | nil => exact absurd hc hnonempty
      | cons p rest =>
          rcases p with ⟨k, e⟩
          exact ⟨_, _, rfl⟩
    obtain ⟨pre, e₀, suf, hdec, hla, hpre, hmin⟩ := oldestScan_spec hscan
    have hk₀ : k₀ ≠ "" :=
      hne (k₀, e₀) (by rw [hdec]; exact List.mem_append_right _ (List.mem_cons_self _ _))
    have hev : evictLRU s =
        { s with
            cache := jsMapDelete s.cache k₀,
            stats := { s.stats with evictions := s.stats.evictions + 1 } } := by
      have hstep : evictLRU s =
          if k₀ ≠ "" then
            { s with
                cache := jsMapDelete s.cache k₀,
                stats := { s.stats with evictions := s.stats.evictions + 1 } }
          else s := by
        unfold evictLRU
        rw [hscan]
      rw [hstep, if_pos hk₀]
    have hdel : jsMapDelete s.cache k₀ = pre ++ suf := by
      rw [hdec]
      exact jsMapDelete_decomposition pre suf k₀ e₀ (hdec ▸ hkeys)
    have hlook2 : (pre ++ suf).lookup key = none := by
      apply not_mem_lookup_eq_none
      intro v' hv'
      apply lookup_eq_none_not_mem hnew v'
      rw [hdec]
      rcases List.mem_append.1 hv' with h | h
      · exact List.mem_append_left _ h
      · exact List.mem_append_right _ (List.mem_cons_of_mem _ h)
    have hcond : (s.cache.length ≥ s.maxSize && (s.cache.lookup key).isNone) = true := by
      simp [hfull, hnew]
    refine ⟨k₀, e₀, pre, suf, hdec, ?_, ?_, ?_, ?_⟩
    · intro p hp
      exact hla ▸ hmin p hp
    · intro p hp
      exact hla ▸ hpre p hp
    · show jsMapSet (if s.cache.length ≥ s.maxSize && (s.cache.lookup key).isNone
          then evictLRU s else s).cache key _ = _
      rw [if_pos hcond, hev, hdel]
      unfold jsMapSet
      rw [hlook2]
      simp
    · show (if s.cache.length ≥ s.maxSize && (s.cache.lookup key).isNone
          then evictLRU s else s).stats.evictions = _
      rw [if_pos hcond, hev]
  · -- (b) overwrite: no eviction counted
    have hcond2 : (s2.cache.length ≥ s2.maxSize &&
        (s2.cache.lookup key2).isNone) = false := by
      simp [hmem2]
    show (if s2.cache.length ≥ s2.maxSize && (s2.cache.lookup key2).isNone
        then evictLRU s2 else s2).stats.evictions = _
    rw [hcond2]
    simp
  · -- (b) overwrite: keys unchanged
    have hcond2 : (s2.cache.length ≥ s2.maxSize &&
        (s2.cache.lookup key2).isNone) = false := by
      simp [hmem2]
    show (jsMapSet (if s2.cache.length ≥ s2.maxSize &&
          (s2.cache.lookup key2).isNone
        then evictLRU s2 else s2).cache key2 _).map Prod.fst = _
    rw [hcond2]
    simp only [Bool.false_eq_true, if_false]
    exact jsMapSet_keys s2.cache key2 _ (by simp [hmem2])
  · -- (c) successful get updates lastAccessed of the returned entry
    cases hx : s3.cache.lookup k3 with
    | none => simp [CacheManager.get, hx] at h3
    | some e3 =>
        by_cases hexp : (!b3 && isExpired now3 e3) = true
        · simp [CacheManager.get, hx, hexp] at h3
        · refine ⟨e3, rfl, ?_⟩
          have hcache : (CacheManager.get s3 now3 k3 b3).2.cache =
              jsMapSet s3.cache k3 { e3 with lastAccessed := now3 } := by
            simp [CacheManager.get, hx, hexp]
          rw [hcache]
          exact lookup_jsMapSet_self _ _ _

/-- Counterexample to C2 as stated: with `maxSize = 1` and a single entry
stored under the empty-string key, inserting a brand-new key evicts
nothing (the truthiness guard skips the empty key) and the store grows to
two entries. -/
theorem cache_set_empty_key_skips_eviction :
    ((⟨[("", { data := 0, timestamp := 0, lastAccessed := 0, ttl := 100 })],
        100, 1, ⟨0, 0, 0, 0⟩⟩ : CacheState Nat).cache.length =
      (⟨[("", { data := 0, timestamp := 0, lastAccessed := 0, ttl := 100 })],
        100, 1, ⟨0, 0, 0, 0⟩⟩ : CacheState Nat).maxSize) ∧
    ((⟨[("", { data := 0, timestamp := 0, lastAccessed := 0, ttl := 100 })],
        100, 1, ⟨0, 0, 0, 0⟩⟩ : CacheState Nat).cache.lookup "k" = none) ∧
    (CacheManager.set
      (⟨[("", { data := 0, timestamp := 0, lastAccessed := 0, ttl := 100 })],
        100, 1, ⟨0, 0, 0, 0⟩⟩ : CacheState Nat) 5 "k" 7 100).stats.evictions = 0 ∧
    (CacheManager.set
      (⟨[("", { data := 0, timestamp := 0, lastAccessed := 0, ttl := 100 })],
        100, 1, ⟨0, 0, 0, 0⟩⟩ : CacheState Nat) 5 "k" 7 100).cache.length = 2 := by
  decide

/-- Witness for the amended C2 at a concrete two-entry cache:
inserting "C" into a full cache evicts the least recently used entry and
overwriting "A" does not evict. -/
theorem cache_lru_eviction_amended_witness :
    (∃ k₀ e₀ pre suf,
      (⟨[("A", { data := 1, timestamp := 0, lastAccessed := 5, ttl := 100 }),
         ("B", { data := 2, timestamp := 0, lastAccessed := 3, ttl := 100 })],
        100, 2, ⟨0, 0, 0, 0⟩⟩ : CacheState Nat).cache =
          pre ++ (k₀, e₀) :: suf ∧
      (∀ p ∈ (⟨[("A", { data := 1, timestamp := 0, lastAccessed := 5, ttl := 100 }),
         ("B", { data := 2, timestamp := 0, lastAccessed := 3, ttl := 100 })],
        100, 2, ⟨0, 0, 0, 0⟩⟩ : CacheState Nat).cache,
          e₀.lastAccessed ≤ p.2.lastAccessed) ∧
      (∀ p ∈ pre, e₀.lastAccessed < p.2.lastAccessed) ∧
      (CacheManager.set
        (⟨[("A", { data := 1, timestamp := 0, lastAccessed := 5, ttl := 100 }),
           ("B", { data := 2, timestamp := 0, lastAccessed := 3, ttl := 100 })],
          100, 2, ⟨0, 0, 0, 0⟩⟩ : CacheState Nat) 60 "C" 7 50).cache =
        (pre ++ suf) ++
          [("C", { data := 7, timestamp := 60, lastAccessed := 60, ttl := 50 })] ∧
      (CacheManager.set
        (⟨[("A", { data := 1, timestamp := 0, lastAccessed := 5, ttl := 100 }),
           ("B", { data := 2, timestamp := 0, lastAccessed := 3, ttl := 100 })],
          100, 2, ⟨0, 0, 0, 0⟩⟩ : CacheState Nat) 60 "C" 7 50).stats.evictions = 1)
    ∧ ((CacheManager.set
        (⟨[("A", { data := 1, timestamp := 0, lastAccessed := 5, ttl := 100 }),
           ("B", { data := 2, timestamp := 0, lastAccessed := 3, ttl := 100 })],
          100, 2, ⟨0, 0, 0, 0⟩⟩ : CacheState Nat) 70 "A" 9 40).stats.evictions = 0 ∧
       (CacheManager.set
        (⟨[("A", { data := 1, timestamp := 0, lastAccessed := 5, ttl := 100 }),
           ("B", { data := 2, timestamp := 0, lastAccessed := 3, ttl := 100 })],
          100, 2, ⟨0, 0, 0, 0⟩⟩ : CacheState Nat) 70 "A" 9 40).cache.map Prod.fst =
        ["A", "B"]) := by
  have h := cache_lru_eviction_amended
    (⟨[("A", { data := 1, timestamp := 0, lastAccessed := 5, ttl := 100 }),
       ("B", { data := 2, timestamp := 0, lastAccessed := 3, ttl := 100 })],
      100, 2, ⟨0, 0, 0, 0⟩⟩ : CacheState Nat) 60 "C" 7 50
    (by decide) (by decide) (by decide) (by decide) (by decide)
    (⟨[("A", { data := 1, timestamp := 0, lastAccessed := 5, ttl := 100 }),
       ("B", { data := 2, timestamp := 0, lastAccessed := 3, ttl := 100 })],
      100, 2, ⟨0, 0, 0, 0⟩⟩ : CacheState Nat) 70 "A"
    { data := 1, timestamp := 0, lastAccessed := 5, ttl := 100 } 9 40 (by decide)
    (⟨[("A", { data := 1, timestamp := 0, lastAccessed := 5, ttl := 100 }),
       ("B", { data := 2, timestamp := 0, lastAccessed := 3, ttl := 100 })],
      100, 2, ⟨0, 0, 0, 0⟩⟩ : CacheState Nat) 80 "A" true
    { data := 1, timestamp := 0, stale := false } (by decide)
  exact ⟨h.1, h.2.1.1, by decide⟩

end ClaimC2

namespace CacheManager

/-- Counting one more hit never lowers the exact hit rate
`hits / (hits + misses)`, and strictly raises it whenever at least one
miss has been recorded. -/
theorem exactHitRate_hit_mono (h m se ev : ℕ) :
    exactHitRate ⟨h, m, se, ev⟩ ≤ exactHitRate ⟨h + 1, m, se, ev⟩ ∧
    (0 < m → exactHitRate ⟨h, m, se, ev⟩ < exactHitRate ⟨h + 1, m, se, ev⟩) := by
  have e1 : exactHitRate ⟨h, m, se, ev⟩ =
      if h + m > 0 then (h : ℚ) / ((h : ℚ) + (m : ℚ)) else 0 := rfl
  have e2 : exactHitRate ⟨h + 1, m, se, ev⟩ =
      if h + 1 + m > 0 then
        ((h + 1 : ℕ) : ℚ) / (((h + 1 : ℕ) : ℚ) + (m : ℚ))
      else 0 := rfl
  have hlt : 0 < m →
      exactHitRate ⟨h, m, se, ev⟩ < exactHitRate ⟨h + 1, m, se, ev⟩ := by
    intro hm
    rw [e1, e2, if_pos (by omega), if_pos (by omega)]
    have hm' : (0 : ℚ) < (m : ℚ) := by exact_mod_cast hm
    have hh' : (0 : ℚ) ≤ (h : ℚ) := Nat.cast_nonneg h
    have d1 : (0 : ℚ) < (h : ℚ) + m := by linarith
    have d2 : (0 : ℚ) < ((h : ℚ) + 1) + m := by linarith
    push_cast
    rw [div_lt_div_iff₀ d1 d2]
    nlinarith
  refine ⟨?_, hlt⟩
  rcases Nat.eq_zero_or_pos m with hm | hm
  · subst hm
    rw [e1, e2]
    rcases Nat.eq_zero_or_pos h with hh | hh
    · subst hh
      norm_num
    · rw [if_pos (by omega), if_pos (by omega)]
      have hh' : (h : ℚ) ≠ 0 := ne_of_gt (by exact_mod_cast hh)
      have hh1 : (h : ℚ) + 1 ≠ 0 := by positivity
      push_cast
      rw [add_zero, add_zero, div_self hh', div_self hh1]
  · exact le_of_lt (hlt hm)

end CacheManager

section ClaimC10

open CacheManager

/-- C10 (amended): a stale-allowed `get` on an expired-but-present entry is
counted as a hit (never lowering the exact hit rate `hits/(hits+misses)`
and strictly raising it whenever at least one miss has been recorded; the
reported value rounds to two decimals) and updates the entry's
`lastAccessedAt` to `now`, so the LRU scan afterwards never selects this
entry while some other entry was last accessed earlier; a fresh `get` on
the same expired entry is counted as a miss and leaves the cache map,
hence `lastAccessedAt`, unchanged. -/
theorem cache_stale_hit_statistics {α : Type} (s : CacheState α)
    (now : Nat) (k : String) (e : CacheEntry α)
    (hmem : s.cache.lookup k = some e)
    (hexp : isExpired now e = true)
    (hkeys : (s.cache.map Prod.fst).Nodup)
    (k2 : String) (e2 : CacheEntry α)
    (hmem2 : (k2, e2) ∈ s.cache) (hk2 : k2 ≠ k)
    (hlt : e2.lastAccessed < now) :
    ((CacheManager.get s now k true).1 =
        some { data := e.data, timestamp := e.timestamp, stale := true })
    ∧ ((CacheManager.get s now k true).2.stats.hits = s.stats.hits + 1 ∧
       (CacheManager.get s now k true).2.stats.misses = s.stats.misses)
    ∧ ((CacheManager.get s now k true).2.cache.lookup k =
        some { e with lastAccessed := now })
    ∧ (exactHitRate s.stats ≤
        exactHitRate (CacheManager.get s now k true).2.stats ∧
       (0 < s.stats.misses →
        exactHitRate s.stats <
          exactHitRate (CacheManager.get s now k true).2.stats))
    ∧ ((CacheManager.get s now k false).1 = none ∧
       (CacheManager.get s now k false).2.cache = s.cache ∧
       (CacheManager.get s now k false).2.stats.misses = s.stats.misses + 1 ∧
       (CacheManager.get s now k false).2.stats.hits = s.stats.hits)
    ∧ (∀ k₀ a₀,
        oldestScan (CacheManager.get s now k true).2.cache = some (k₀, a₀) →
        k₀ ≠ k) := by
  have hstale : (CacheManager.get s now k true) =
      (some { data := e.data, timestamp := e.timestamp, stale := true },
       { s with
          cache := jsMapSet s.cache k { e with lastAccessed := now },
          stats := { s.stats with hits := s.stats.hits + 1 } }) := by
    simp [CacheManager.get, hmem, hexp]
  have hfresh : (CacheManager.get s now k false) =
      (none, { s with stats := { s.stats with misses := s.stats.misses + 1 } }) := by
    simp [CacheManager.get, hmem, hexp]
  have hcache : (CacheManager.get s now k true).2.cache =
      jsMapSet s.cache k { e with lastAccessed := now } := by rw [hstale]
  have hsome : (s.cache.lookup k).isSome := by simp [hmem]
  refine ⟨by rw [hstale], by rw [hstale]; exact ⟨rfl, rfl⟩, ?_, ?_,
    by rw [hfresh]; exact ⟨rfl, rfl, rfl, rfl⟩, ?_⟩
  · rw [hcache]
    exact lookup_jsMapSet_self _ _ _
  · have hstats : (CacheManager.get s now k true).2.stats =
        { s.stats with hits := s.stats.hits + 1 } := by rw [hstale]
    rw [hstats]
    exact exactHitRate_hit_mono s.stats.hits s.stats.misses s.stats.sets
      s.stats.evictions
  · intro k₀ a₀ hscan
    obtain ⟨pre, e₀, suf, hdec, hla, hpre, hmin⟩ := oldestScan_spec hscan
    intro hcontra
    have hnd : ((CacheManager.get s now k true).2.cache.map Prod.fst).Nodup := by
      rw [hcache, jsMapSet_keys _ _ _ hsome]
      exact hkeys
    have hmem0 : (k₀, e₀) ∈ (CacheManager.get s now k true).2.cache := by
      rw [hdec]
      exact List.mem_append_right _ (List.mem_cons_self _ _)
    have hlookup0 : (CacheManager.get s now k true).2.cache.lookup k₀ =
        some e₀ := nodupKeys_mem_lookup hnd hmem0
    have hlookup1 : (CacheManager.get s now k true).2.cache.lookup k =
        some { e with lastAccessed := now } := by
      rw [hcache]
      exact lookup_jsMapSet_self _ _ _
    have he₀ : e₀ = { e with lastAccessed := now } := by
      rw [hcontra] at hlookup0
      exact Option.some.inj (hlookup0.symm.trans hlookup1)
    have hmem2' : (k2, e2) ∈ (CacheManager.get s now k true).2.cache := by
      rw [hcache]
      unfold jsMapSet
      rw [if_pos hsome]
      exact List.mem_map.2 ⟨(k2, e2), hmem2, by simp [hk2]⟩
    have h1 : a₀ ≤ e2.lastAccessed := hmin (k2, e2) hmem2'
    have h2 : a₀ = now := by
      rw [← hla, he₀]
    omega

/-- Counterexample to C10 as stated: with one recorded hit and no recorded
miss, a stale-allowed read of an expired entry is counted as a hit but the
reported `hitRate` stays at 1, so it is not raised. -/
theorem cache_stale_hit_reported_rate_not_raised :
    ((CacheManager.get
        (⟨[("k", { data := 5, timestamp := 0, lastAccessed := 0, ttl := 10 })],
          10, 5, ⟨1, 0, 0, 0⟩⟩ : CacheState Nat) 20 "k" true).1 =
      some { data := 5, timestamp := 0, stale := true }) ∧
    ((CacheManager.get
        (⟨[("k", { data := 5, timestamp := 0, lastAccessed := 0, ttl := 10 })],
          10, 5, ⟨1, 0, 0, 0⟩⟩ : CacheState Nat) 20 "k" true).2.stats.hits = 2) ∧
    ¬ (reportedHitRate
        (CacheManager.get
          (⟨[("k", { data := 5, timestamp := 0, lastAccessed := 0, ttl := 10 })],
            10, 5, ⟨1, 0, 0, 0⟩⟩ : CacheState Nat) 20 "k" true).2.stats >
       reportedHitRate
        (⟨[("k", { data := 5, timestamp := 0, lastAccessed := 0, ttl := 10 })],
          10, 5, ⟨1, 0, 0, 0⟩⟩ : CacheState Nat).stats) := by
  refine ⟨by decide, by decide, ?_⟩
  have h1 : reportedHitRate (⟨2, 0, 0, 0⟩ : Stats) = 1 := by
    have e1 : exactHitRate (⟨2, 0, 0, 0⟩ : Stats) = 1 := by
      unfold exactHitRate
      norm_num
    unfold reportedHitRate jsRound
    rw [e1]
    norm_num
  have h2 : reportedHitRate (⟨1, 0, 0, 0⟩ : Stats) = 1 := by
    have e1 : exactHitRate (⟨1, 0, 0, 0⟩ : Stats) = 1 := by
      unfold exactHitRate
      norm_num
    unfold reportedHitRate jsRound
    rw [e1]
    norm_num
  have hst : (CacheManager.get
      (⟨[("k", { data := 5, timestamp := 0, lastAccessed := 0, ttl := 10 })],
        10, 5, ⟨1, 0, 0, 0⟩⟩ : CacheState Nat) 20 "k" true).2.stats =
      (⟨2, 0, 0, 0⟩ : Stats) := by decide
  rw [hst, h1, h2]
  simp

/-- Witness for the amended C10 at a concrete two-entry cache with one
recorded miss: the stale read is a hit, strictly raises the exact rate,
and the fresh read is a miss that leaves the map unchanged. -/
theorem cache_stale_hit_statistics_witness :
    (isExpired 20 ({ data := 5, timestamp := 0, lastAccessed := 3, ttl := 10 } :
        CacheEntry Nat) = true) ∧
    ((CacheManager.get
        (⟨[("k", { data := 5, timestamp := 0, lastAccessed := 3, ttl := 10 }),
           ("j", { data := 6, timestamp := 0, lastAccessed := 1, ttl := 50 })],
          10, 5, ⟨1, 1, 0, 0⟩⟩ : CacheState Nat) 20 "k" true).1 =
      some { data := 5, timestamp := 0, stale := true }) ∧
    (exactHitRate (⟨1, 1, 0, 0⟩ : Stats) <
      exactHitRate (CacheManager.get
        (⟨[("k", { data := 5, timestamp := 0, lastAccessed := 3, ttl := 10 }),
           ("j", { data := 6, timestamp := 0, lastAccessed := 1, ttl := 50 })],
          10, 5, ⟨1, 1, 0, 0⟩⟩ : CacheState Nat) 20 "k" true).2.stats) ∧
    ((CacheManager.get
        (⟨[("k", { data := 5, timestamp := 0, lastAccessed := 3, ttl := 10 }),
           ("j", { data := 6, timestamp := 0, lastAccessed := 1, ttl := 50 })],
          10, 5, ⟨1, 1, 0, 0⟩⟩ : CacheState Nat) 20 "k" false).2.cache =
      (⟨[("k", { data := 5, timestamp := 0, lastAccessed := 3, ttl := 10 }),
         ("j", { data := 6, timestamp := 0, lastAccessed := 1, ttl := 50 })],
        10, 5, ⟨1, 1, 0, 0⟩⟩ : CacheState Nat).cache) := by
  have h := cache_stale_hit_statistics
    (⟨[("k", { data := 5, timestamp := 0, lastAccessed := 3, ttl := 10 }),
       ("j", { data := 6, timestamp := 0, lastAccessed := 1, ttl := 50 })],
      10, 5, ⟨1, 1, 0, 0⟩⟩ : CacheState Nat) 20 "k"
    { data := 5, timestamp := 0, lastAccessed := 3, ttl := 10 }
    (by decide) (by decide) (by decide) "j"
    { data := 6, timestamp := 0, lastAccessed := 1, ttl := 50 }
    (by decide) (by decide) (by decide)
  exact ⟨by decide, h.1, h.2.2.2.1.2 (by decide), h.2.2.2.2.1.2.1⟩

end ClaimC10

section ClaimC9

open CacheManager

/-- C9: `generateKey` is a pure function of its two arguments (in this
embedding it takes no `now` or state argument, mirroring the source which
reads no clock and mutates nothing): for every metric `m` and filter
objects holding the same key-value assignments in any insertion order
(JS object keys are distinct, hence the `Nodup` hypothesis), the generated
keys coincide; and an empty filter object yields the distinguished all-key
`m ++ "_all"`. -/
theorem generateKey_canonical (m : String) (f1 f2 : List (String × String))
    (hperm : f1.Perm f2) (hnd : (f1.map Prod.fst).Nodup) :
    generateKey m f1 = generateKey m f2 ∧ generateKey m [] = m ++ "_all" := by
  constructor
  · unfold generateKey
    by_cases h0 : f1.length = 0
    · have h0' : f2.length = 0 := by rw [← hperm.length_eq]; exact h0
      rw [if_pos h0, if_pos h0']
    · have h0' : ¬ f2.length = 0 := by rw [← hperm.length_eq]; exact h0
      rw [if_neg h0, if_neg h0']
      have hkeysperm : (f1.map Prod.fst).Perm (f2.map Prod.fst) := hperm.map _
      have hsorteq : List.insertionSort (· ≤ ·) (f1.map Prod.fst) =
          List.insertionSort (· ≤ ·) (f2.map Prod.fst) :=
        List.eq_of_perm_of_sorted
          ((List.perm_insertionSort (· ≤ ·) (f1.map Prod.fst)).trans
            (hkeysperm.trans
              (List.perm_insertionSort (· ≤ ·) (f2.map Prod.fst)).symm))
          (List.sorted_insertionSort (· ≤ ·) (f1.map Prod.fst))
          (List.sorted_insertionSort (· ≤ ·) (f2.map Prod.fst))
      have hmaps : (List.insertionSort (· ≤ ·) (f2.map Prod.fst)).map
            (fun key => key ++ ":" ++ (f1.lookup key).getD "undefined") =
          (List.insertionSort (· ≤ ·) (f2.map Prod.fst)).map
            (fun key => key ++ ":" ++ (f2.lookup key).getD "undefined") := by
        apply List.map_congr_left
        intro key hk
        rw [lookup_perm hperm hnd key]
      simp only [hsorteq, hmaps]
  · rfl

/-- Witness for C9: the two-entry filter object written in either insertion
order canonicalizes to the same key, and the empty filter object yields the
all-key. -/
theorem generateKey_canonical_witness :
    ([(("b" : String), ("2" : String)), ("a", "1")].Perm
      [(("a" : String), ("1" : String)), ("b", "2")]) ∧
    ((([(("b" : String), ("2" : String)), ("a", "1")].map Prod.fst).Nodup)) ∧
    (generateKey "m" [("b", "2"), ("a", "1")] =
      generateKey "m" [("a", "1"), ("b", "2")]) ∧
    (generateKey "m" [] = "m" ++ "_all") :=
  ⟨List.Perm.swap _ _ _, by decide,
    (generateKey_canonical "m" [("b", "2"), ("a", "1")]
      [("a", "1"), ("b", "2")] (List.Perm.swap _ _ _) (by decide)).1,
    (generateKey_canonical "m" [("b", "2"), ("a", "1")]
      [("a", "1"), ("b", "2")] (List.Perm.swap _ _ _) (by decide)).2⟩

end ClaimC9

section ClaimC1

open CacheManager ErrorHandler

/-- C1 evaluated at its failing input (code bug): the kpis route populates
the cache under `generateKey('program_kpis', query)` =
`program_kpis_all`, but on a subsequent failure the error handler derives
its lookup key from the request path, `generateKey('program/kpis', query)`
= `program/kpis_all`.  The keys differ, so even though a stale-allowed
read for the route's key still returns the cached payload, the error
handler misses the cache and sends the error response instead of the
stale envelope. -/
theorem errorHandler_stale_key_mismatch :
    (ErrorHandler.kpisRouteCacheKey [] = "program_kpis_all") ∧
    (ErrorHandler.errorHandlerCacheKey "/api/program/kpis" [] =
      "program/kpis_all") ∧
    (ErrorHandler.kpisRouteCacheKey [] ≠
      ErrorHandler.errorHandlerCacheKey "/api/program/kpis" []) ∧
    ((CacheManager.get
        (CacheManager.set (⟨[], 300000, 100, ⟨0, 0, 0, 0⟩⟩ : CacheState Nat)
          1000 (ErrorHandler.kpisRouteCacheKey []) 42 60000)
        2000 (ErrorHandler.kpisRouteCacheKey []) true).1 =
      some { data := 42, timestamp := 1000, stale := false }) ∧
    ((ErrorHandler.errorHandler
        (⟨"Network error connecting to SSC API: connect ECONNREFUSED",
          some "NETWORK_ERROR", some 503⟩ : JsError)
        (⟨"/api/program/kpis", []⟩ : ErrRequest)
        (CacheManager.set (⟨[], 300000, 100, ⟨0, 0, 0, 0⟩⟩ : CacheState Nat)
          1000 (ErrorHandler.kpisRouteCacheKey []) 42 60000)
        2000).1 =
      HandlerResponse.errorResponse 503
        "Network error connecting to SSC API: connect ECONNREFUSED"
        "NETWORK_ERROR") := by
  decide

end ClaimC1

section ClaimC5

open SSCApiClient ErrorHandler

/-- Counterexample to C5 as stated: an upstream 500 response is a 5xx
upstream-server failure (retryable), yet its classified error carries
status code 500, not the claimed 503. -/
theorem classifyError_500_not_503 :
    SSCApiClient.shouldRetry ⟨some 500, "boom", none⟩ = true ∧
    (SSCApiClient.classifyError ⟨some 500, "boom", none⟩ "/projects").type =
      "API_ERROR" ∧
    (SSCApiClient.classifyError ⟨some 500, "boom", none⟩ "/projects").statusCode
      = 500 ∧
    (SSCApiClient.classifyError ⟨some 500, "boom", none⟩ "/projects").statusCode
      ≠ 503 := by
  decide

/-- C5 (amended): classified kinds and status codes are stable:
no-response/network failures map to `NETWORK_ERROR`/503 (retryable);
401 to `AUTH_ERROR`/401, 403 to `PERMISSION_ERROR`/403, 404 to
`NOT_FOUND`/404, 400 to `BAD_REQUEST`/400 (all non-retryable); any other
status, 5xx included, maps to `API_ERROR` carrying that same upstream
status.  When no cached value exists, the user-visible error response
carries exactly `err.statusCode` (500 when absent or zero) and `err.type`
(`INTERNAL_ERROR` when absent or empty); in particular, for any classified
error with a non-zero status and non-empty kind it carries exactly the
classified status code and kind. -/
theorem classifyError_status_mapping (α : Type)
    (endpoint msg : String) (dm : Option String) (c : Nat)
    (h401 : c ≠ 401) (h403 : c ≠ 403) (h404 : c ≠ 404) (h400 : c ≠ 400)
    (errA : JsError) (reqA : ErrRequest) (sA : CacheManager.CacheState α)
    (nowA : Nat)
    (hmissA : (CacheManager.get sA nowA
        (errorHandlerCacheKey reqA.path reqA.query) true).1 = none)
    (ce : ClassifiedError) (reqB : ErrRequest) (sB : CacheManager.CacheState α)
    (nowB : Nat)
    (hmissB : (CacheManager.get sB nowB
        (errorHandlerCacheKey reqB.path reqB.query) true).1 = none)
    (hc0 : ce.statusCode ≠ 0) (hct : ce.type ≠ "") :
    ((classifyError ⟨none, msg, dm⟩ endpoint).type = "NETWORK_ERROR" ∧
     (classifyError ⟨none, msg, dm⟩ endpoint).statusCode = 503 ∧
     shouldRetry ⟨none, msg, dm⟩ = true)
    ∧ ((classifyError ⟨some 401, msg, dm⟩ endpoint).type = "AUTH_ERROR" ∧
       (classifyError ⟨some 401, msg, dm⟩ endpoint).statusCode = 401 ∧
       shouldRetry ⟨some 401, msg, dm⟩ = false)
    ∧ ((classifyError ⟨some 403, msg, dm⟩ endpoint).type = "PERMISSION_ERROR" ∧
       (classifyError ⟨some 403, msg, dm⟩ endpoint).statusCode = 403 ∧
       shouldRetry ⟨some 403, msg, dm⟩ = false)
    ∧ ((classifyError ⟨some 404, msg, dm⟩ endpoint).type = "NOT_FOUND" ∧
       (classifyError ⟨some 404, msg, dm⟩ endpoint).statusCode = 404 ∧
       shouldRetry ⟨some 404, msg, dm⟩ = false)
    ∧ ((classifyError ⟨some 400, msg, dm⟩ endpoint).type = "BAD_REQUEST" ∧
       (classifyError ⟨some 400, msg, dm⟩ endpoint).statusCode = 400 ∧
       shouldRetry ⟨some 400, msg, dm⟩ = false)
    ∧ ((classifyError ⟨some c, msg, dm⟩ endpoint).type = "API_ERROR" ∧
       (classifyError ⟨some c, msg, dm⟩ endpoint).statusCode = c)
    ∧ ((ErrorHandler.errorHandler errA reqA sA nowA).1 =
        HandlerResponse.errorResponse (jsOrNat errA.statusCode 500)
          errA.message (jsOrStr errA.type "INTERNAL_ERROR"))
    ∧ ((ErrorHandler.errorHandler (toJsError ce) reqB sB nowB).1 =
        HandlerResponse.errorResponse ce.statusCode ce.message ce.type) := by
  refine ⟨⟨rfl, rfl, rfl⟩, ⟨rfl, rfl, rfl⟩, ⟨rfl, rfl, rfl⟩, ⟨rfl, rfl, rfl⟩,
    ⟨rfl, rfl, rfl⟩, ?_, ?_, ?_⟩
  · constructor
    · simp [classifyError, h401, h403, h404, h400]
    · simp [classifyError, h401, h403, h404, h400]
  · cases hx : CacheManager.get sA nowA
        (errorHandlerCacheKey reqA.path reqA.query) true with
    | mk r s1 =>
        rw [hx] at hmissA
        simp only at hmissA
        subst hmissA
        simp [ErrorHandler.errorHandler, hx]
  · cases hx : CacheManager.get sB nowB
        (errorHandlerCacheKey reqB.path reqB.query) true with
    | mk r s1 =>
        rw [hx] at hmissB
        simp only at hmissB
        subst hmissB
        have ht : jsOrStr (toJsError ce).type "INTERNAL_ERROR" = ce.type := by
          simp [toJsError, jsOrStr, hct]
        have hs : jsOrNat (toJsError ce).statusCode 500 = ce.statusCode := by
          simp [toJsError, jsOrNat, hc0]
        simp [ErrorHandler.errorHandler, hx, toJsError]
        exact ⟨by simpa [toJsError] using hs, by simpa [toJsError] using ht⟩

/-- Witness for the amended C5 at concrete inputs: status 502, an empty
cache (so the stale lookup misses), and the classified error of a 502. -/
theorem classifyError_status_mapping_witness :
    ((502 : Nat) ≠ 401) ∧
    ((SSCApiClient.classifyError ⟨some 502, "bad gateway", none⟩ "/projects").type
      = "API_ERROR") ∧
    ((SSCApiClient.classifyError ⟨some 502, "bad gateway", none⟩ "/projects").statusCode
      = 502) ∧
    ((ErrorHandler.errorHandler
        (toJsError (SSCApiClient.classifyError ⟨some 502, "bad gateway", none⟩
          "/projects"))
        (⟨"/api/program/kpis", []⟩ : ErrRequest)
        (⟨[], 300000, 100, ⟨0, 0, 0, 0⟩⟩ : CacheManager.CacheState Nat) 0).1 =
      HandlerResponse.errorResponse 502 "SSC API error (502): bad gateway"
        "API_ERROR") := by
  have h := classifyError_status_mapping Nat "/projects" "bad gateway"
    none 502 (by decide) (by decide) (by decide) (by decide)
    (⟨"e", none, none⟩ : JsError) (⟨"/api/program/kpis", []⟩ : ErrRequest)
    (⟨[], 300000, 100, ⟨0, 0, 0, 0⟩⟩ : CacheManager.CacheState Nat) 0
    (by decide)
    (SSCApiClient.classifyError ⟨some 502, "bad gateway", none⟩ "/projects")
    (⟨"/api/program/kpis", []⟩ : ErrRequest)
    (⟨[], 300000, 100, ⟨0, 0, 0, 0⟩⟩ : CacheManager.CacheState Nat) 0
    (by decide) (by decide) (by decide)
  exact ⟨by decide, h.2.2.2.2.2.1.1, h.2.2.2.2.2.1.2, h.2.2.2.2.2.2.2⟩

end ClaimC5

namespace SSCApiClient

/-- Trace of SSCApiClient.get when attempts `1..k-1` fail with retryable
errors and attempt `k` fails with an error that is non-retryable or
exhausts the budget (`k = retries`): the run performs exactly `k` attempts,
sleeps `retryDelay * n` after attempt `n` for `n = attempt..k-1` (linear
backoff), and raises the classification of the last error. -/
theorem getAux_error_trace {α : Type} (retries retryDelay : Nat)
    (out : Nat → AttemptResult α) (endpoint : String) (k : Nat)
    (e : AxiosError) (hke : out k = .err e)
    (hstop : shouldRetry e = false ∨ k = retries)
    (hk : k ≤ retries)
    (herr : ∀ n, 1 ≤ n → n < k → ∃ e', out n = .err e' ∧ shouldRetry e' = true) :
    ∀ fuel attempt delays, 1 ≤ attempt → attempt ≤ k →
      retries ≤ fuel + attempt →
      getAux retries retryDelay out endpoint fuel attempt delays =
        { delays := delays ++
            (List.range' attempt (k - attempt)).map (fun n => retryDelay * n),
          attempts := k,
          outcome := .error (classifyError e endpoint) } := by
  intro fuel
  induction fuel with
  | zero =>
      intro attempt delays h1 h2 h3
      have hak : attempt = k := by omega
      subst hak
      simp [getAux, hke, Nat.sub_self, List.range']
  | succ fuel ih =>
      intro attempt delays h1 h2 h3
      by_cases hak : attempt = k
      · subst hak
        have hcond : ((attempt < retries : Bool) && shouldRetry e) = false := by
          rcases hstop with h | h
          · simp [h]
          · simp [h]
        simp [getAux, hke, hcond, Nat.sub_self, List.range']
      · have hlt : attempt < k := lt_of_le_of_ne h2 hak
        obtain ⟨e', hout', hret'⟩ := herr attempt h1 hlt
        have hcond : ((attempt < retries : Bool) && shouldRetry e') = true := by
          simp [hret']
          omega
        have hstep : getAux retries retryDelay out endpoint (fuel + 1) attempt
            delays =
            getAux retries retryDelay out endpoint fuel (attempt + 1)
              (delays ++ [retryDelay * attempt]) := by
          simp [getAux, hout', hcond]
        rw [hstep, ih (attempt + 1) _ (by omega) (by omega) (by omega)]
        have hk' : k - attempt = (k - (attempt + 1)) + 1 := by omega
        rw [hk', List.range'_succ]
        simp [List.append_assoc]

end SSCApiClient

section ClaimC4

open SSCApiClient

/-- C4: the client retries only retryable errors (no-response transport
failures and 5xx statuses), up to the configured maximum attempt count,
sleeping `retryDelay * attemptNumber` between attempts (linear backoff);
a 400, 401, 403 or 404 response is never retried and its classified error
is raised on the first attempt; a retryable-error run that exhausts the
budget performs exactly `retries` attempts and re-raises the last error in
classified form; and a non-retryable error at attempt `k` after retryable
errors stops the run at attempt `k`. -/
theorem ssc_client_retry_policy {α : Type} (retries retryDelay : Nat)
    (out1 out2 out3 : Nat → AttemptResult α) (endpoint : String)
    (hr : 1 ≤ retries)
    (e1 : AxiosError) (c : Nat) (hco : c = 400 ∨ c = 401 ∨ c = 403 ∨ c = 404)
    (hresp : e1.response = some c) (hout1 : out1 1 = .err e1)
    (errAt : Nat → AxiosError)
    (hall : ∀ n, 1 ≤ n → n ≤ retries →
      out2 n = .err (errAt n) ∧ shouldRetry (errAt n) = true)
    (k : Nat) (hk1 : 1 ≤ k) (hk2 : k ≤ retries)
    (e3 : AxiosError) (hout3k : out3 k = .err e3)
    (hnr : shouldRetry e3 = false)
    (herr3 : ∀ n, 1 ≤ n → n < k →
      ∃ e', out3 n = .err e' ∧ shouldRetry e' = true) :
    (∀ e : AxiosError, shouldRetry e = true ↔
        (e.response = none ∨ ∃ st, e.response = some st ∧ 500 ≤ st ∧ st < 600))
    ∧ (shouldRetry e1 = false ∧
       SSCApiClient.get retries retryDelay out1 endpoint =
        { delays := [], attempts := 1,
          outcome := .error (classifyError e1 endpoint) })
    ∧ (SSCApiClient.get retries retryDelay out2 endpoint =
        { delays := (List.range' 1 (retries - 1)).map
            (fun n => retryDelay * n),
          attempts := retries,
          outcome := .error (classifyError (errAt retries) endpoint) })
    ∧ (SSCApiClient.get retries retryDelay out3 endpoint =
        { delays := (List.range' 1 (k - 1)).map (fun n => retryDelay * n),
          attempts := k,
          outcome := .error (classifyError e3 endpoint) }) := by
  have hsr1 : shouldRetry e1 = false := by
    rcases hco with rfl | rfl | rfl | rfl <;> simp [shouldRetry, hresp]
  refine ⟨?_, ⟨hsr1, ?_⟩, ?_, ?_⟩
  · intro e
    constructor
    · intro h
      cases hresp' : e.response with
      | none => exact Or.inl rfl
      | some st =>
          right
          refine ⟨st, rfl, ?_⟩
          rw [shouldRetry, hresp'] at h
          simpa using h
    · intro h
      rcases h with h | ⟨st, hst, h5, h6⟩
      · simp [shouldRetry, h]
      · simp [shouldRetry, hst, h5, h6]
  · have := getAux_error_trace retries retryDelay out1 endpoint 1 e1 hout1
      (Or.inl hsr1) hr (by intro n hn1 hn2; omega) retries 1 []
      (by omega) (by omega) (by omega)
    simpa [SSCApiClient.get] using this
  · have := getAux_error_trace retries retryDelay out2 endpoint retries
      (errAt retries) (hall retries hr le_rfl).1 (Or.inr rfl) le_rfl
      (by intro n hn1 hn2
          exact ⟨errAt n, (hall n hn1 (by omega)).1, (hall n hn1 (by omega)).2⟩)
      retries 1 [] (by omega) hr (by omega)
    simpa [SSCApiClient.get] using this
  · have := getAux_error_trace retries retryDelay out3 endpoint k e3 hout3k
      (Or.inl hnr) hk2 herr3 retries 1 [] (by omega) hk1 (by omega)
    simpa [SSCApiClient.get] using this

/-- Witness for C4 with `retries = 3`, `retryDelay = 100`: a constant 404
fails on attempt 1 with no delays; a constant 503 is retried with delays
100 and 200 and fails classified on attempt 3; a 500 followed by a 404
stops at attempt 2 after one 100ms delay. -/
theorem ssc_client_retry_policy_witness :
    (SSCApiClient.get 3 100
        (fun _ => (AttemptResult.err ⟨some 404, "nf", none⟩ :
          AttemptResult Nat)) "/projects" =
      { delays := [], attempts := 1,
        outcome := .error (classifyError ⟨some 404, "nf", none⟩ "/projects") })
    ∧ (SSCApiClient.get 3 100
        (fun _ => (AttemptResult.err ⟨some 503, "unavailable", none⟩ :
          AttemptResult Nat)) "/projects" =
      { delays := (List.range' 1 2).map (fun n => 100 * n), attempts := 3,
        outcome := .error (classifyError ⟨some 503, "unavailable", none⟩
          "/projects") })
    ∧ (SSCApiClient.get 3 100
        (fun n => if n = 1 then (AttemptResult.err ⟨some 500, "boom", none⟩ :
            AttemptResult Nat)
          else .err ⟨some 404, "gone", none⟩) "/projects" =
      { delays := (List.range' 1 1).map (fun n => 100 * n), attempts := 2,
        outcome := .error (classifyError ⟨some 404, "gone", none⟩
          "/projects") }) := by
  have h := ssc_client_retry_policy 3 100
    (fun _ => (AttemptResult.err ⟨some 404, "nf", none⟩ : AttemptResult Nat))
    (fun _ => (AttemptResult.err ⟨some 503, "unavailable", none⟩ :
      AttemptResult Nat))
    (fun n => if n = 1 then (AttemptResult.err ⟨some 500, "boom", none⟩ :
        AttemptResult Nat)
      else .err ⟨some 404, "gone", none⟩)
    "/projects" (by decide)
    ⟨some 404, "nf", none⟩ 404 (by decide) rfl rfl
    (fun _ => ⟨some 503, "unavailable", none⟩)
    (fun n h1 h2 => ⟨rfl, rfl⟩)
    2 (by decide) (by decide)
    ⟨some 404, "gone", none⟩ (by decide) (by decide)
    (by intro n h1 h2
        have : n = 1 := by omega
        subst this
        exact ⟨⟨some 500, "boom", none⟩, rfl, rfl⟩)
  exact ⟨h.2.1.2, h.2.2.1, h.2.2.2⟩

end ClaimC4


section ClaimC7

open SSCApiClient

/-- Shifting a map over `List.range (k+1)` by one: head plus shifted tail. -/
theorem map_range_succ_shift {β : Type} (g : Nat → β) (k : Nat) :
    (List.range (k + 1)).map g = g 0 :: (List.range k).map (fun i => g (i + 1)) := by
  rw [List.range_succ_eq_map]
  simp [List.map_map, Function.comp]

/-- Characterization of the getWithPagination loop body: whenever the loop
terminates (returns `some`), it fetched a positive number `k` of pages at
offsets `start, start + limit, ...`, appended their items in order after
the accumulator, every non-final page was full (at least `limit` items)
and did not reach the advertised total, and the final page was short
(including empty) or reached the advertised total. -/
theorem paginateAux_spec {α : Type} (pages : Nat → PageResponse α)
    (limit : Nat) (hlim : 1 ≤ limit) :
    ∀ fuel start allData offsets res offsF,
      paginateAux pages limit fuel start allData offsets = some (res, offsF) →
      ∃ k, 1 ≤ k ∧
        offsF = offsets ++ (List.range k).map (fun i => start + i * limit) ∧
        res = allData ++
          ((List.range k).map (fun i => (pages (start + i * limit)).data)).flatten ∧
        (∀ i, i + 1 < k →
          limit ≤ (pages (start + i * limit)).data.length ∧
          countReached (pages (start + i * limit)).count
            (allData ++ ((List.range (i + 1)).map
              (fun j => (pages (start + j * limit)).data)).flatten).length
            = false) ∧
        ((pages (start + (k - 1) * limit)).data.length < limit ∨
         countReached (pages (start + (k - 1) * limit)).count
           (allData ++ ((List.range k).map
             (fun j => (pages (start + j * limit)).data)).flatten).length
           = true) := by
  intro fuel
  induction fuel with
  | zero =>
      intro start allData offsets res offsF h
      simp [paginateAux] at h
  | succ fuel ih =>
      intro start allData offsets res offsF h
      have hstep : paginateAux pages limit (fuel + 1) start allData offsets =
          if (pages start).data.length = 0 then
            some (allData, offsets ++ [start])
          else if (pages start).data.length < limit ||
              countReached (pages start).count
                (allData ++ (pages start).data).length then
            some (allData ++ (pages start).data, offsets ++ [start])
          else
            paginateAux pages limit fuel (start + limit)
              (allData ++ (pages start).data) (offsets ++ [start]) := rfl
      by_cases h0 : (pages start).data.length = 0
      · have hdata : (pages start).data = [] := List.length_eq_zero.1 h0
        rw [hstep, if_pos h0] at h
        have hres : allData = res ∧ offsets ++ [start] = offsF := by
          have h2 := Option.some.inj h
          exact ⟨congrArg Prod.fst h2, congrArg Prod.snd h2⟩
        refine ⟨1, le_rfl, ?_, ?_, ?_, ?_⟩
        · rw [← hres.2]
          simp [show List.range 1 = [0] from rfl]
        · rw [← hres.1]
          simp [show List.range 1 = [0] from rfl, hdata]
        · intro i hi
          omega
        · left
          simp only [Nat.sub_self, Nat.zero_mul, Nat.add_zero]
          rw [hdata]
          simpa using hlim
      · by_cases hstop : ((pages start).data.length < limit ||
            countReached (pages start).count
              (allData ++ (pages start).data).length) = true
        · rw [hstep, if_neg h0, if_pos hstop] at h
          have hres : allData ++ (pages start).data = res ∧
              offsets ++ [start] = offsF := by
            have h2 := Option.some.inj h
            exact ⟨congrArg Prod.fst h2, congrArg Prod.snd h2⟩
          refine ⟨1, le_rfl, ?_, ?_, ?_, ?_⟩
          · rw [← hres.2]
            simp [show List.range 1 = [0] from rfl]
          · rw [← hres.1]
            simp [show List.range 1 = [0] from rfl]
          · intro i hi
            omega
          · have hstop2 : ((pages start).data.length < limit) ∨
                countReached (pages start).count
                  (allData ++ (pages start).data).length = true := by
              simpa using hstop
            rcases hstop2 with hs | hs
            · left
              simp only [Nat.sub_self, Nat.zero_mul, Nat.add_zero]
              simpa using hs
            · right
              simp only [Nat.sub_self, Nat.zero_mul, Nat.add_zero,
                show List.range 1 = [0] from rfl]
              simpa using hs
        · rw [hstep, if_neg h0, if_neg hstop] at h
          obtain ⟨k', hk1', hoffs', hres', hmid', hlast'⟩ := ih _ _ _ _ _ h
          have hpageshift : ∀ j, (List.range j).map
              (fun i => (pages (start + (i + 1) * limit)).data) =
              (List.range j).map
                (fun i => (pages ((start + limit) + i * limit)).data) :=
            fun j => List.map_congr_left (fun i _ => by
              rw [show start + (i + 1) * limit = (start + limit) + i * limit
                from by ring])
          have hoffshift : (List.range k').map
              (fun i => start + (i + 1) * limit) =
              (List.range k').map (fun i => (start + limit) + i * limit) :=
            List.map_congr_left (fun i _ => by ring)
          have haccshift : ∀ j, (allData ++ (pages start).data) ++
              ((List.range j).map
                (fun i => (pages ((start + limit) + i * limit)).data)).flatten =
              allData ++ ((List.range (j + 1)).map
                (fun i => (pages (start + i * limit)).data)).flatten := by
            intro j
            rw [map_range_succ_shift (fun i => (pages (start + i * limit)).data) j]
            rw [← hpageshift j]
            simp [List.append_assoc]
          have hnotshort : ¬ ((pages start).data.length < limit) := by
            intro hc
            exact hstop (by simp [hc])
          have hnotreached : countReached (pages start).count
              (allData ++ (pages start).data).length = false := by
            cases hb : countReached (pages start).count
                (allData ++ (pages start).data).length
            · rfl
            · exact absurd (by rw [hb, Bool.or_true]) hstop
          refine ⟨k' + 1, by omega, ?_, ?_, ?_, ?_⟩
          · rw [hoffs', map_range_succ_shift (fun i => start + i * limit) k']
            rw [← hoffshift]
            simp [List.append_assoc]
          · rw [hres', haccshift k']
          · intro i hi
            cases i with
            | zero =>
                constructor
                · simpa using Nat.le_of_not_lt hnotshort
                · have : allData ++ ((List.range 1).map
                      (fun j => (pages (start + j * limit)).data)).flatten =
                      allData ++ (pages start).data := by
                    simp [show List.range 1 = [0] from rfl]
                  rw [this]
                  simpa using hnotreached
            | succ j =>
                have hj : j + 1 < k' := by omega
                obtain ⟨hm1, hm2⟩ := hmid' j hj
                constructor
                · have : start + (j + 1) * limit = (start + limit) + j * limit := by
                    ring
                  rw [this]
                  exact hm1
                · have heq : allData ++ ((List.range (j + 1 + 1)).map
                      (fun i => (pages (start + i * limit)).data)).flatten =
                      (allData ++ (pages start).data) ++
                        ((List.range (j + 1)).map
                          (fun i => (pages ((start + limit) + i * limit)).data)).flatten :=
                    (haccshift (j + 1)).symm
                  have hidx : start + (j + 1) * limit =
                      (start + limit) + j * limit := by ring
                  rw [heq, hidx]
                  exact hm2
          · have hidx : (start + limit) + (k' - 1) * limit =
                start + ((k' + 1) - 1) * limit := by
              have h1 : (k' - 1) + 1 = k' := by omega
              calc (start + limit) + (k' - 1) * limit
                  = start + ((k' - 1) + 1) * limit := by ring
                _ = start + k' * limit := by rw [h1]
            have heq : allData ++ ((List.range (k' + 1)).map
                (fun j => (pages (start + j * limit)).data)).flatten =
                (allData ++ (pages start).data) ++
                  ((List.range k').map
                    (fun j => (pages ((start + limit) + j * limit)).data)).flatten :=
              (haccshift k').symm
            rcases hlast' with hs | hs
            · left
              rw [← hidx]
              exact hs
            · right
              rw [heq, ← hidx]
              exact hs

/-- C7: the paginated fetch requests pages at offsets 0, limit, 2*limit,
... with the fixed page size, appends each page's items in order (the
result is the in-order concatenation of all fetched pages), and stops
exactly when a page returns fewer items than requested (including an empty
page) or when the accumulated item count reaches the response's advertised
total (`response.count && allData.length >= response.count`, so an absent
or zero count never stops the loop): every non-final page is full and does
not reach the total, and the final page is short or reaches it. -/
theorem ssc_pagination_spec {α : Type} (pages : Nat → PageResponse α)
    (limit fuel : Nat) (hlim : 1 ≤ limit) (res : List α) (offs : List Nat)
    (h : getWithPagination pages limit fuel = some (res, offs)) :
    ∃ k, 1 ≤ k ∧
      offs = (List.range k).map (fun i => i * limit) ∧
      res = ((List.range k).map (fun i => (pages (i * limit)).data)).flatten ∧
      (∀ i, i + 1 < k →
        limit ≤ (pages (i * limit)).data.length ∧
        countReached (pages (i * limit)).count
          (((List.range (i + 1)).map
            (fun j => (pages (j * limit)).data)).flatten).length = false) ∧
      ((pages ((k - 1) * limit)).data.length < limit ∨
       countReached (pages ((k - 1) * limit)).count
         (((List.range k).map
           (fun j => (pages (j * limit)).data)).flatten).length = true) := by
  obtain ⟨k, hk, hoffs, hres, hmid, hlast⟩ :=
    paginateAux_spec pages limit hlim fuel 0 [] [] res offs h
  refine ⟨k, hk, by simpa using hoffs, by simpa using hres, ?_, ?_⟩
  · intro i hi
    have := hmid i hi
    constructor
    · simpa using this.1
    · simpa using this.2
  · rcases hlast with hs | hs
    · left
      simpa using hs
    · right
      simpa using hs

/-- Witness for C7: a 5-item collection served in pages of 2 with an
advertised total of 5 is fetched at offsets 0, 2, 4 and returned whole, in
order. -/
theorem ssc_pagination_spec_witness :
    ((1 : Nat) ≤ 2) ∧
    (getWithPagination
      (fun o => ⟨(([10, 20, 30, 40, 50] : List Nat).drop o).take 2, some 5⟩)
      2 10 = some ([10, 20, 30, 40, 50], [0, 2, 4])) ∧
    (∃ k, 1 ≤ k ∧
      ([0, 2, 4] : List Nat) = (List.range k).map (fun i => i * 2) ∧
      ([10, 20, 30, 40, 50] : List Nat) = ((List.range k).map (fun i =>
        ((fun o => (⟨(([10, 20, 30, 40, 50] : List Nat).drop o).take 2,
          some 5⟩ : PageResponse Nat)) (i * 2)).data)).flatten ∧
      (∀ i, i + 1 < k →
        2 ≤ ((fun o => (⟨(([10, 20, 30, 40, 50] : List Nat).drop o).take 2,
          some 5⟩ : PageResponse Nat)) (i * 2)).data.length ∧
        countReached ((fun o => (⟨(([10, 20, 30, 40, 50] : List Nat).drop o).take 2,
            some 5⟩ : PageResponse Nat)) (i * 2)).count
          (((List.range (i + 1)).map (fun j =>
            ((fun o => (⟨(([10, 20, 30, 40, 50] : List Nat).drop o).take 2,
              some 5⟩ : PageResponse Nat)) (j * 2)).data)).flatten).length = false) ∧
      (((fun o => (⟨(([10, 20, 30, 40, 50] : List Nat).drop o).take 2,
          some 5⟩ : PageResponse Nat)) ((k - 1) * 2)).data.length < 2 ∨
       countReached ((fun o => (⟨(([10, 20, 30, 40, 50] : List Nat).drop o).take 2,
          some 5⟩ : PageResponse Nat)) ((k - 1) * 2)).count
         (((List.range k).map (fun j =>
           ((fun o => (⟨(([10, 20, 30, 40, 50] : List Nat).drop o).take 2,
             some 5⟩ : PageResponse Nat)) (j * 2)).data)).flatten).length = true)) :=
  ⟨by decide, by decide,
    ssc_pagination_spec
      (fun o => ⟨(([10, 20, 30, 40, 50] : List Nat).drop o).take 2, some 5⟩)
      2 10 (by decide) [10, 20, 30, 40, 50] [0, 2, 4] (by decide)⟩

end ClaimC7

section ClaimC6

open DataAggregator

/-- Ceiling division bound: `size` copies of the chunk count cover the
whole array, so the chunks exhaust the input. -/
theorem ceil_mul_ge (len size : Nat) (h : 1 ≤ size) :
    len ≤ ((len + size - 1) / size) * size := by
  rcases Nat.eq_zero_or_pos len with h0 | h0
  · simp [h0]
  · have h1 : len + size - 1 = (len - 1) + size := by omega
    rw [h1, Nat.add_div_right _ h]
    have h2 := Nat.div_add_mod (len - 1) size
    have h3 := Nat.mod_lt (len - 1) h
    have h4 : ((len - 1) / size + 1) * size = ((len - 1) / size) * size + size := by
      ring
    have h5 : size * ((len - 1) / size) = ((len - 1) / size) * size :=
      Nat.mul_comm _ _
    omega

/-- Concatenating the first `k` chunks yields the first `k * size`
elements. -/
theorem flatten_chunk_take {α : Type} (l : List α) (size k : Nat) :
    ((List.range k).map (fun j => (l.drop (j * size)).take size)).flatten =
      l.take (k * size) := by
  induction k with
  | zero => simp
  | succ k ih =>
      rw [List.range_succ]
      simp only [List.map_append, List.flatten_append, ih, List.map_cons,
        List.map_nil, List.flatten_cons, List.flatten_nil, List.append_nil]
      rw [Nat.succ_mul, List.take_add]

/-- chunkArray partitions: concatenating all chunks restores the array. -/
theorem chunkArray_flatten {α : Type} (l : List α) (size : Nat)
    (h : 1 ≤ size) : (chunkArray l size).flatten = l := by
  unfold chunkArray
  rw [flatten_chunk_take]
  exact List.take_of_length_le (ceil_mul_ge l.length size h)

/-- Flattening per-chunk flat-maps equals flat-mapping the flattened
chunks: merged output does not depend on the chunk boundaries. -/
theorem flatten_map_flatten {β γ : Type} (g : β → List γ) (L : List (List β)) :
    (L.map (fun c => (c.map g).flatten)).flatten = (L.flatten.map g).flatten := by
  induction L with
  | nil => simp
  | cons c L ih => simp [ih]

/-- The j-th chunk is `array.slice(j*size, j*size + size)`. -/
theorem chunkArray_getD {α : Type} (l : List α) (size j : Nat)
    (hj : j < (chunkArray l size).length) :
    (chunkArray l size).getD j [] = (l.drop (j * size)).take size := by
  unfold chunkArray at hj ⊢
  rw [List.getD_eq_getElem?_getD, List.getElem?_map]
  simp only [List.length_map, List.length_range] at hj
  rw [List.getElem?_range hj]
  rfl

/-- C6: for every item list and concurrency bound of at least 1, the
batched aggregation partitions the items into consecutive batches of the
concurrency size with only the last batch possibly smaller (7 items at
concurrency 2 yield batch sizes [2,2,2,1]); the merged output equals the
in-order flat-map of the per-item results, where an item whose fetch fails
contributes the default empty list and every successful item contributes
its payload - so a failure never discards other items, including those in
the same batch. -/
theorem chunk_aggregate_spec {α : Type} (items : List Nat) (size : Nat)
    (hsz : 1 ≤ size) (fetch : Nat → Except String (List α)) :
    ((chunkArray items size).flatten = items)
    ∧ (∀ j, j + 1 < (chunkArray items size).length →
        ((chunkArray items size).getD j []).length = size)
    ∧ (items ≠ [] →
        1 ≤ ((chunkArray items size).getD
              ((chunkArray items size).length - 1) []).length ∧
        ((chunkArray items size).getD
          ((chunkArray items size).length - 1) []).length ≤ size)
    ∧ ((chunkArray [1, 2, 3, 4, 5, 6, 7] 2).map List.length = [2, 2, 2, 1])
    ∧ (aggregateIssuesAcrossVersions fetch items size =
        (items.map (fetchResult fetch)).flatten)
    ∧ (∀ v msg, fetch v = .error msg → fetchResult fetch v = [])
    ∧ (∀ v issues, fetch v = .ok issues → fetchResult fetch v = issues) := by
  have hlen : (chunkArray items size).length =
      (items.length + size - 1) / size := by
    simp [chunkArray]
  refine ⟨chunkArray_flatten items size hsz, ?_, ?_, by decide, ?_, ?_, ?_⟩
  · intro j hj
    rw [hlen] at hj
    have hn0 : 1 ≤ items.length := by
      by_contra h0
      have hz : items.length = 0 := by omega
      rw [hz] at hj
      have : (0 + size - 1) / size = 0 := Nat.div_eq_of_lt (by omega)
      omega
    have hn : (items.length + size - 1) / size =
        (items.length - 1) / size + 1 := by
      have h1 : items.length + size - 1 = (items.length - 1) + size := by omega
      rw [h1, Nat.add_div_right _ hsz]
    have hj' : j + 1 ≤ (items.length - 1) / size := by omega
    have hmul : (j + 1) * size ≤ ((items.length - 1) / size) * size :=
      Nat.mul_le_mul_right _ hj'
    have hdms := Nat.div_mul_le_self (items.length - 1) size
    have hgetd := chunkArray_getD items size j (by rw [hlen]; omega)
    rw [hgetd]
    simp only [List.length_take, List.length_drop]
    have h2 : (j + 1) * size = j * size + size := by ring
    omega
  · intro hne
    have hn0 : 1 ≤ items.length := by
      cases items with
      | nil => exact absurd rfl hne
      | cons a l => simp
    have hn : (items.length + size - 1) / size =
        (items.length - 1) / size + 1 := by
      have h1 : items.length + size - 1 = (items.length - 1) + size := by omega
      rw [h1, Nat.add_div_right _ hsz]
    have hlpos : 1 ≤ (chunkArray items size).length := by
      rw [hlen]
      have h1 : items.length + size - 1 = (items.length - 1) + size := by omega
      rw [h1, Nat.add_div_right _ hsz]
      exact Nat.le_add_left 1 _
    have hgetd := chunkArray_getD items size
      ((chunkArray items size).length - 1) (by omega)
    rw [hgetd]
    have hidx : (chunkArray items size).length - 1 =
        (items.length - 1) / size := by
      rw [hlen]
      have h1 : items.length + size - 1 = (items.length - 1) + size := by omega
      rw [h1, Nat.add_div_right _ hsz]
      exact Nat.add_sub_cancel _ _
    rw [hidx]
    simp only [List.length_take, List.length_drop]
    have hdms := Nat.div_mul_le_self (items.length - 1) size
    constructor
    · omega
    · omega
  · unfold aggregateIssuesAcrossVersions
    rw [flatten_map_flatten, chunkArray_flatten _ _ hsz]
  · intro v msg h
    simp [fetchResult, h]
  · intro v issues h
    simp [fetchResult, h]

/-- Witness for C6: seven items at concurrency 2, with item 4 failing:
chunks flatten back to the items and the merged output keeps every other
item's contribution, substituting nothing for item 4. -/
theorem chunk_aggregate_spec_witness :
    ((1 : Nat) ≤ 2) ∧
    ((chunkArray [1, 2, 3, 4, 5, 6, 7] 2).flatten = [1, 2, 3, 4, 5, 6, 7]) ∧
    (aggregateIssuesAcrossVersions
      (fun v => if v = 4 then .error "fetch failed" else .ok [v * 10])
      [1, 2, 3, 4, 5, 6, 7] 2 =
      ([1, 2, 3, 4, 5, 6, 7].map (fetchResult
        (fun v => if v = 4 then .error "fetch failed" else .ok [v * 10]))).flatten) ∧
    (aggregateIssuesAcrossVersions
      (fun v => if v = 4 then .error "fetch failed" else .ok [v * 10])
      [1, 2, 3, 4, 5, 6, 7] 2 = [10, 20, 30, 50, 60, 70]) :=
  ⟨by decide,
    (chunk_aggregate_spec [1, 2, 3, 4, 5, 6, 7] 2 (by decide)
      (fun v => if v = 4 then .error "fetch failed" else .ok [v * 10])).1,
    (chunk_aggregate_spec [1, 2, 3, 4, 5, 6, 7] 2 (by decide)
      (fun v => if v = 4 then .error "fetch failed" else .ok [v * 10])).2.2.2.2.1,
    by decide⟩

end ClaimC6

namespace Scheduler

/-- The job loop collects, in registration order, the names of the jobs
whose `fn` resolves into `success` and the `(name, error)` pairs of the
jobs whose `fn` throws into `failed`. -/
theorem runJobs_spec (jobs : List (String × Except String Unit)) :
    (runJobs jobs).1 =
      (jobs.filter (fun j => match j.2 with
        | .ok _ => true
        | .error _ => false)).map Prod.fst ∧
    (runJobs jobs).2 =
      jobs.filterMap (fun j => match j.2 with
        | .ok _ => none
        | .error msg => some (j.1, msg)) := by
  induction jobs with
  | nil => exact ⟨rfl, rfl⟩
  | cons j rest ih =>
      rcases j with ⟨name, outcome⟩
      cases outcome with
      | ok u => simpa [runJobs, List.filter_cons, List.filterMap_cons] using ih
      | error msg =>
          simpa [runJobs, List.filter_cons, List.filterMap_cons] using ih

end Scheduler

section ClaimC8

open Scheduler

/-- C8: if a refresh is already in progress, forceRefresh returns
`{skipped: true}` immediately, invokes no registered job and leaves the
state untouched; otherwise it runs under the reentrancy guard (a second
trigger against the in-flight state is skipped), invokes every registered
job in registration order, records each throwing job's name and error
message in the failed list while the other jobs still run, then clears the
guard, records `lastRefreshTime` and returns
`{success: [names], failed: [(name, error)], duration}`. -/
theorem scheduler_force_refresh_spec (s1 s2 : SchedulerState)
    (t1 t2 t3 t4 u1 u2 : Nat)
    (h1 : s1.refreshInProgress = true)
    (h2 : s2.refreshInProgress = false) :
    (forceRefresh s1 t1 t2 = (s1, .skipped, []))
    ∧ ((forceRefresh s2 u1 u2).2.2 = s2.refreshFunctions.map Prod.fst)
    ∧ ((forceRefresh s2 u1 u2).2.1 =
        RefreshOutcome.completed
          ((s2.refreshFunctions.filter (fun j => match j.2 with
            | .ok _ => true
            | .error _ => false)).map Prod.fst)
          (s2.refreshFunctions.filterMap (fun j => match j.2 with
            | .ok _ => none
            | .error msg => some (j.1, msg)))
          (u2 - u1))
    ∧ ((forceRefresh s2 u1 u2).1.refreshInProgress = false ∧
       (forceRefresh s2 u1 u2).1.lastRefreshTime = some u2 ∧
       (forceRefresh s2 u1 u2).1.refreshFunctions = s2.refreshFunctions)
    ∧ (forceRefresh { s2 with refreshInProgress := true } t3 t4 =
        ({ s2 with refreshInProgress := true }, .skipped, [])) := by
  have hidle : forceRefresh s2 u1 u2 =
      ({ s2 with refreshInProgress := false, lastRefreshTime := some u2 },
       .completed (runJobs s2.refreshFunctions).1
         (runJobs s2.refreshFunctions).2 (u2 - u1),
       s2.refreshFunctions.map Prod.fst) := by
    simp [forceRefresh, h2]
  refine ⟨by simp [forceRefresh, h1], ?_, ?_, ?_, by simp [forceRefresh]⟩
  · rw [hidle]
  · rw [hidle]
    rw [(runJobs_spec s2.refreshFunctions).1, (runJobs_spec s2.refreshFunctions).2]
  · rw [hidle]
    exact ⟨rfl, rfl, rfl⟩

/-- Witness for C8 with three registered jobs of which the second throws:
the busy state skips without invoking anything; the idle state invokes all
three jobs in order, records the failure of jobB, and reports success for
jobA and jobC with duration 150. -/
theorem scheduler_force_refresh_spec_witness :
    ((⟨true, none, [("jobA", Except.ok ())]⟩ :
        SchedulerState).refreshInProgress = true) ∧
    (forceRefresh (⟨true, none, [("jobA", Except.ok ())]⟩ : SchedulerState)
      0 1 = (⟨true, none, [("jobA", Except.ok ())]⟩, .skipped, [])) ∧
    ((forceRefresh
        (⟨false, none, [("jobA", Except.ok ()), ("jobB", Except.error "SSC down"),
          ("jobC", Except.ok ())]⟩ : SchedulerState) 100 250).2.2 =
      ["jobA", "jobB", "jobC"]) ∧
    ((forceRefresh
        (⟨false, none, [("jobA", Except.ok ()), ("jobB", Except.error "SSC down"),
          ("jobC", Except.ok ())]⟩ : SchedulerState) 100 250).2.1 =
      RefreshOutcome.completed ["jobA", "jobC"] [("jobB", "SSC down")] 150) ∧
    ((forceRefresh
        (⟨false, none, [("jobA", Except.ok ()), ("jobB", Except.error "SSC down"),
          ("jobC", Except.ok ())]⟩ : SchedulerState) 100 250).1.lastRefreshTime =
      some 250) := by
  have h := scheduler_force_refresh_spec
    (⟨true, none, [("jobA", Except.ok ())]⟩ : SchedulerState)
    (⟨false, none, [("jobA", Except.ok ()), ("jobB", Except.error "SSC down"),
      ("jobC", Except.ok ())]⟩ : SchedulerState)
    0 1 7 9 100 250 rfl rfl
  exact ⟨rfl, h.1, h.2.1, by rw [h.2.2.1]; rfl, h.2.2.2.1.2.1⟩

end ClaimC8
